import Mathlib

/-!
Verification of the panorama-tour build pipeline (tools/build_tour_levelc.js and
its legacy variant). The scripts read a scene manifest, dead-reckon 2-D node
positions, snap them to a grid, build a neighbor graph from sequential, manual
and proximity edges minus blocked edges, and emit per-scene navigation hotspots.

The embedding below translates the relevant JavaScript functions:
strings and rational numbers model the parsing layer exactly; geometric
quantities (positions, bearings, yaws) are modelled over the real numbers,
with `Real.sin`, `Real.cos`, `Real.arctan` and `Real.sqrt` standing for the
corresponding `Math` functions. JavaScript `NaN` results are modelled by
`Option` (`none` = NaN), and `throw` by `Except.error`. The JS `%` operator
(truncated remainder) is modelled by `jsMod`/`jsModQ`.
-/

namespace TourBuild

/-! ## JS string and number primitives -/

/-- Whitespace test for the characters that occur in manifests; models the
character class trimmed by JS `String.prototype.trim`. -/
def isWsChar (c : Char) : Bool := c = ' ' || c = '\t' || c = '\n' || c = '\r'

/-- Models JS `String.prototype.trim` (ASCII whitespace). -/
def jsTrim (s : String) : String :=
  String.mk (((s.toList.dropWhile isWsChar).reverse.dropWhile isWsChar).reverse)

/-- Models JS `String.prototype.toUpperCase` on ASCII strings. -/
def jsToUpper (s : String) : String := String.mk (s.toList.map Char.toUpper)

/-- Value of a digit string, most significant first. -/
def digitsToNat (ds : List Char) : ℕ := ds.foldl (fun n c => 10 * n + (c.toNat - 48)) 0

/-- Matcher for the regex body digits+(dot digits+)? used by `headingToDeg`. -/
def numTokCore (cs : List Char) : Bool :=
  let intPart := cs.takeWhile Char.isDigit
  let rest := cs.drop intPart.length
  !intPart.isEmpty &&
    (rest.isEmpty ||
      (rest.head? = some '.' && !rest.tail.isEmpty && rest.tail.all Char.isDigit))

/-- Models the JS regex test for -?digits+(dot digits+)? used by `headingToDeg`. -/
def isNumericToken (s : String) : Bool :=
  let cs := s.toList
  if cs.head? = some '-' then numTokCore cs.tail else numTokCore cs

/-- Exact rational value of a decimal digit string with optional fractional part;
mirrors the shape accepted by `numTokCore`. -/
def parseDecimalCore (cs : List Char) : Option ℚ :=
  let intPart := cs.takeWhile Char.isDigit
  let rest := cs.drop intPart.length
  if rest.isEmpty then
    (if intPart.isEmpty then none else some (digitsToNat intPart))
  else if rest.head? = some '.' && !rest.tail.isEmpty && rest.tail.all Char.isDigit
      && !intPart.isEmpty then
    some ((digitsToNat intPart : ℚ) + (digitsToNat rest.tail : ℚ) / (10 ^ rest.tail.length))
  else none

/-- Decimal parse with an optional leading minus sign, the numeric forms that
`headingToDeg` feeds to JS `Number`. -/
def parseSignedDecimal (cs : List Char) : Option ℚ :=
  if cs.head? = some '-' then (parseDecimalCore cs.tail).map (fun q => -q)
  else parseDecimalCore cs

/-- Models JS `Number(v)` on the plain decimal strings that occur in manifests:
the empty (or all-whitespace) string gives 0, an optional sign followed by a
decimal literal gives its exact value, anything else gives `none` (NaN). -/
def parseJsNumber (v : String) : Option ℚ :=
  let s := jsTrim v
  if s = "" then some 0
  else if s.toList.head? = some '+' then parseDecimalCore s.toList.tail
  else parseSignedDecimal s.toList

/-- JS truncation toward zero, as used by the `%` operator. -/
def rtruncQ (x : ℚ) : ℤ := if 0 ≤ x then ⌊x⌋ else ⌈x⌉

/-- JS `%` (truncated remainder) on rationals. -/
def jsModQ (a b : ℚ) : ℚ := a - b * rtruncQ (a / b)

/-- Models JS `toNum(v, f)`: `Number(v)` when finite, else the fallback. -/
def toNum (v : String) (f : ℚ) : ℚ := (parseJsNumber v).getD f

/-! ## Heading parsing -/

/-- The eight-point compass map of the canonical build script. -/
def compassMap8 (s : String) : Option ℚ :=
  if s = "N" then some 0
  else if s = "NE" then some 45
  else if s = "E" then some 90
  else if s = "SE" then some 135
  else if s = "S" then some 180
  else if s = "SW" then some 225
  else if s = "W" then some 270
  else if s = "NW" then some 315
  else none

/-- The sixteen-point compass map of the legacy build script. -/
def compassMap16 (s : String) : Option ℚ :=
  if s = "N" then some 0
  else if s = "NE" then some 45
  else if s = "ENE" then some (135 / 2)
  else if s = "E" then some 90
  else if s = "ESE" then some (225 / 2)
  else if s = "SE" then some 135
  else if s = "SSE" then some (315 / 2)
  else if s = "S" then some 180
  else if s = "SSW" then some (405 / 2)
  else if s = "SW" then some 225
  else if s = "WSW" then some (495 / 2)
  else if s = "W" then some 270
  else if s = "WNW" then some (585 / 2)
  else if s = "NW" then some 315
  else if s = "NNW" then some (675 / 2)
  else none

/-- The numeric branch shared by both heading parsers:
`((Number(s) % 360) + 360) % 360`. -/
def numericHeading (s : String) : Option ℚ :=
  (parseSignedDecimal s.toList).map (fun q => jsModQ (jsModQ q 360 + 360) 360)

/-- Models `headingToDeg` of the canonical script: `none` stands for NaN. -/
def headingToDeg (h : String) : Option ℚ :=
  if h = "" then none
  else
    let s := jsToUpper (jsTrim h)
    if isNumericToken s then numericHeading s
    else compassMap8 s

/-- Models `headingToDeg` of the legacy script (sixteen compass points). -/
def headingToDegLegacy (h : String) : Option ℚ :=
  if h = "" then none
  else
    let s := jsToUpper (jsTrim h)
    if isNumericToken s then numericHeading s
    else compassMap16 s

/-- Models `sceneKeyFromFilename`: strip a final dot-extension when present. -/
def sceneKeyFromFilename (filename : String) : String :=
  let cs := filename.toList
  let revSuffix := cs.reverse.takeWhile (fun c => c ≠ '.')
  match cs.reverse.dropWhile (fun c => c ≠ '.') with
  | '.' :: restRev => if revSuffix.isEmpty then filename else String.mk restRev.reverse
  | _ => filename

/-! ## Scene table loader -/

/-- Fixed default step distance (`DEFAULT_STEP_METERS`). -/
def DEFAULT_STEP_METERS : ℚ := 5

/-- One raw manifest row, with the per-column strings already extracted by the
CSV tokenizer (absent cells are the empty string, as in `parseCsv`). -/
structure RawRow where
  id : String
  type : String
  floor : String
  sectionName : String
  notes : String
  filename : String
  heading : String
  moveHeading : String
  stepMeters : String
deriving DecidableEq

/-- One parsed scene record, the element type of the scene table. -/
structure Scene where
  id : String
  type : String
  floor : String
  sectionName : String
  notes : String
  filename : String
  sceneKey : String
  headingDeg : ℚ
  moveHeadingDeg : Option ℚ
  stepMeters : ℚ
deriving DecidableEq

/-- Models one iteration of the canonical loader `scenes = rows.map(...)`.
A thrown `Error` is modelled as `Except.error`. -/
def parseSceneRow (r : RawRow) : Except String Scene :=
  let id := jsTrim r.id
  let filename := jsTrim r.filename
  if id = "" then Except.error "scenes.csv: missing id"
  else if filename = "" then Except.error ("scenes.csv: missing filename for id=" ++ id)
  else
    let headingRaw := jsTrim r.heading
    match headingToDeg headingRaw with
    | none => Except.error ("scenes.csv: invalid heading " ++ headingRaw ++ " for id=" ++ id)
    | some headingDeg =>
      let moveHeadingRaw := jsTrim r.moveHeading
      let moveHeadingDeg := if moveHeadingRaw ≠ "" then headingToDeg moveHeadingRaw else none
      Except.ok
        { id := id
          type := if jsTrim r.type = "" then "gen" else jsTrim r.type
          floor := jsTrim r.floor
          sectionName := jsTrim r.sectionName
          notes := if jsTrim r.notes = "" then sceneKeyFromFilename filename else jsTrim r.notes
          filename := filename
          sceneKey := sceneKeyFromFilename filename
          headingDeg := headingDeg
          moveHeadingDeg := moveHeadingDeg
          stepMeters := toNum r.stepMeters DEFAULT_STEP_METERS }

/-- Models the whole `rows.map(...)` of the canonical loader: rows are parsed
in order and the first thrown error aborts the build. -/
def parseScenes : List RawRow → Except String (List Scene)
  | [] => Except.ok []
  | r :: rest =>
    match parseSceneRow r with
    | Except.error e => Except.error e
    | Except.ok s =>
      match parseScenes rest with
      | Except.error e => Except.error e
      | Except.ok ss => Except.ok (s :: ss)

/-- Boolean success test for `Except`. -/
def isOkE {ε α : Type} : Except ε α → Bool
  | Except.ok _ => true
  | Except.error _ => false

/-! ## Sorting by numeric id -/

/-- Stable insertion of one element into a list already sorted by `key`,
placing it after existing elements with an equal key. -/
def insertByKey {α : Type} (key : α → ℚ) (x : α) : List α → List α
  | [] => [x]
  | y :: ys => if key x < key y then x :: y :: ys else y :: insertByKey key x ys

/-- Stable sort by a rational key. Models `Array.prototype.sort` with the
comparator `(a, b) => key(a) - key(b)`: the ECMAScript specification promises
exactly a stable, comparator-consistent reordering. -/
def sortByKey {α : Type} (key : α → ℚ) (l : List α) : List α :=
  l.foldl (fun acc x => insertByKey key x acc) []

/-- The sort key `Number(scene.id)` of `scenes.sort((a,b)=>Number(a.id)-Number(b.id))`
(manifest ids are numeric strings). -/
def sceneIdNum (s : Scene) : ℚ := (parseJsNumber s.id).getD 0

/-- Models the canonical script sorting the scene table by numeric id. -/
def sortScenes (l : List Scene) : List Scene := sortByKey sceneIdNum l

/-! ## Tuning constants of the canonical script -/

/-- Auto-discovery radius in meters (`LINK_RADIUS`). -/
noncomputable def LINK_RADIUS : ℝ := 7

/-- Angular tolerance around the four bucket centers (`TURN_TOL`). -/
noncomputable def TURN_TOL : ℝ := 30

/-- Maximum proximity winners kept per node (`MAX_PROX_LINKS_PER_NODE`). -/
def MAX_PROX_LINKS_PER_NODE : ℕ := 4

/-- Reciprocity-validation toggle (`REQUIRE_RECIPROCAL`). -/
def REQUIRE_RECIPROCAL : Bool := true

/-- Hotspot yaw snapping toggle (`SNAP_HOTSPOT_YAW`). -/
def SNAP_HOTSPOT_YAW : Bool := true

/-- Grid step for the final coordinate snap (`GRID_STEP`). -/
noncomputable def GRID_STEP : ℝ := 5

/-! ## Angles, bearings and buckets -/

/-- JS truncation toward zero on reals, as used by the `%` operator. -/
noncomputable def rtrunc (x : ℝ) : ℤ := if 0 ≤ x then ⌊x⌋ else ⌈x⌉

/-- JS `%` (truncated remainder) on reals. -/
noncomputable def jsMod (a b : ℝ) : ℝ := a - b * rtrunc (a / b)

/-- Models `normalize180`: fold a degree value into (-180, 180]. -/
noncomputable def normalize180 (deg : ℝ) : ℝ :=
  let d := jsMod (jsMod (deg + 180) 360 + 360) 360 - 180
  if d = -180 then 180 else d

/-- Models `Math.atan2(y, x)` (signed zeros aside, which never matter here). -/
noncomputable def atan2 (y x : ℝ) : ℝ :=
  if 0 < x then Real.arctan (y / x)
  else if x < 0 then
    (if 0 ≤ y then Real.arctan (y / x) + Real.pi else Real.arctan (y / x) - Real.pi)
  else
    (if 0 < y then Real.pi / 2 else if y < 0 then -(Real.pi / 2) else 0)

/-- Models `bearingDeg`: bearing from (ax,ay) to (bx,by), 0 = North (negative y),
90 = East, in [0, 360). -/
noncomputable def bearingDeg (ax ay bx by' : ℝ) : ℝ :=
  let dx := bx - ax
  let dy := by' - ay
  let rad := atan2 dx (-dy)
  jsMod (rad * 180 / Real.pi + 360) 360

/-- One positioned node of `nodes.csv`: id, planar coordinates, capture heading. -/
structure Node where
  id : String
  x : ℝ
  y : ℝ
  headingDeg : ℚ

/-- Models `dist`: Euclidean distance between two nodes. -/
noncomputable def dist (a b : Node) : ℝ :=
  Real.sqrt ((a.x - b.x) * (a.x - b.x) + (a.y - b.y) * (a.y - b.y))

/-- The loop state of `nearestCardinalBucket`: best candidate so far with its
error, `none` standing for the initial best=null / bestErr=Infinity. -/
noncomputable def cardinalFold (yaw : ℝ) : Option (ℤ × ℝ) :=
  [0, 90, -90, 180, -180].foldl
    (fun acc c =>
      let err := |normalize180 (yaw - (c : ℤ))|
      match acc with
      | none => some (c, err)
      | some (b, e) => if err < e then some (c, err) else some (b, e))
    none

/-- Models `nearestCardinalBucket`: the nearest of 0, 90, -90, 180 within
`TURN_TOL` of the yaw, or `none` (null). -/
noncomputable def nearestCardinalBucket (yaw : ℝ) : Option ℤ :=
  match cardinalFold yaw with
  | some (b, e) => if e ≤ TURN_TOL then some (if b = -180 then 180 else b) else none
  | none => none

/-- Models `reciprocalBucket`: the geometrically opposite bucket. -/
def reciprocalBucket (bucket : ℤ) : Option ℤ :=
  if bucket = 0 then some 180
  else if bucket = 180 then some 0
  else if bucket = 90 then some (-90)
  else if bucket = -90 then some 90
  else none

/-! ## Grid snap -/

/-- Models `roundHalfAwayFromZero`: below half rounds down, half and above
rounds up, mirrored for negatives. -/
noncomputable def roundHalfAwayFromZero (x : ℝ) : ℤ :=
  if 0 ≤ x then ⌊x + 1 / 2⌋ else ⌈x - 1 / 2⌉

/-- Models `snapToGrid`: snap a coordinate to the nearest multiple of `step`. -/
noncomputable def snapToGrid (value : ℝ) (step : ℝ) : ℝ :=
  (roundHalfAwayFromZero (value / step) : ℝ) * step

/-! ## Dead-reckoning positioner -/

/-- One step of the canonical dead-reckoning loop. `prev` is the scene the walk
leaves: the canonical script takes the movement heading (with fallback to the
capture heading) and the step distance both from `prev` (`d = prev.stepMeters`). -/
noncomputable def drStep (p : ℝ × ℝ) (prev : Scene) : ℝ × ℝ :=
  let moveDeg : ℚ := prev.moveHeadingDeg.getD prev.headingDeg
  let theta : ℝ := (moveDeg : ℝ) * Real.pi / 180
  let d : ℝ := (prev.stepMeters : ℝ)
  (p.1 + d * Real.sin theta, p.2 - d * Real.cos theta)

/-- The canonical dead-reckoning loop, emitting one node per scene starting
from position `p`. -/
noncomputable def nodesFrom (p : ℝ × ℝ) : List Scene → List Node
  | [] => []
  | s :: rest => { id := s.id, x := p.1, y := p.2, headingDeg := s.headingDeg } :: nodesFrom (drStep p s) rest

/-- Models the canonical `nodes` array before the grid snap (step 2 of the
script): the first scene sits at the origin. -/
noncomputable def nodesRaw (scenes : List Scene) : List Node := nodesFrom (0, 0) scenes

/-- Models step 2b of the canonical script: each coordinate of each finished
node is snapped to the grid once, after the whole walk. -/
noncomputable def nodesSnapped (scenes : List Scene) : List Node :=
  (nodesRaw scenes).map (fun n =>
    { n with x := snapToGrid n.x GRID_STEP, y := snapToGrid n.y GRID_STEP })

/-- The legacy dead-reckoning loop body: heading from the previous record,
distance from the current one (`d = cur.stepMeters`). -/
noncomputable def drStepLegacy (p : ℝ × ℝ) (prev cur : Scene) : ℝ × ℝ :=
  let theta : ℝ := (prev.headingDeg : ℝ) * Real.pi / 180
  let d : ℝ := (cur.stepMeters : ℝ)
  (p.1 + d * Real.sin theta, p.2 - d * Real.cos theta)

/-- Tail of the legacy dead-reckoning loop, carrying the previous scene. -/
noncomputable def nodesFromLegacy (p : ℝ × ℝ) (prev : Scene) : List Scene → List Node
  | [] => []
  | cur :: rest =>
    let q := drStepLegacy p prev cur
    { id := cur.id, x := q.1, y := q.2, headingDeg := cur.headingDeg } :: nodesFromLegacy q cur rest

/-- Models the legacy `nodes` array (the legacy script never snaps). -/
noncomputable def nodesLegacy : List Scene → List Node
  | [] => []
  | s :: rest =>
    { id := s.id, x := 0, y := 0, headingDeg := s.headingDeg } :: nodesFromLegacy (0, 0) s rest

/-- Stable insertion by a real-valued key, placing the new element after
existing elements with an equal key. -/
noncomputable def insertByKeyR {α : Type} (key : α → ℝ) (x : α) : List α → List α
  | [] => [x]
  | y :: ys => if key x < key y then x :: y :: ys else y :: insertByKeyR key x ys

/-- Stable sort by a real-valued key; models `Array.prototype.sort` with the
comparator `(p, q) => key(p) - key(q)`. -/
noncomputable def sortByKeyR {α : Type} (key : α → ℝ) (l : List α) : List α :=
  l.foldl (fun acc x => insertByKeyR key x acc) []

/-! ## Neighbor graph builder -/

/-- The mutable `neigh` map of the canonical script: the set of keys ever
inserted by `addNeighbor`, and the neighbor set per key (empty for absent
keys, matching a `Map` of `Set`s). -/
structure Adj where
  keys : List String
  nbrs : String → Finset String

/-- The fresh `new Map()`. -/
def Adj.empty : Adj := { keys := [], nbrs := fun _ => ∅ }

/-- Models `addNeighbor(neigh, a, b)`: create the entry for `a` when missing,
then add `b` to its set. -/
def addNeighbor (m : Adj) (a b : String) : Adj :=
  { keys := if a ∈ m.keys then m.keys else a :: m.keys
    nbrs := fun k => if k = a then insert b (m.nbrs a) else m.nbrs k }

/-- Models `removeNeighbor(neigh, a, b)`: a no-op when `a` has no entry. -/
def removeNeighbor (m : Adj) (a b : String) : Adj :=
  if a ∈ m.keys then
    { m with nbrs := fun k => if k = a then (m.nbrs a).erase b else m.nbrs k }
  else m

/-- The two `addNeighbor` calls every edge source performs. -/
def addPair (m : Adj) (a b : String) : Adj := addNeighbor (addNeighbor m a b) b a

/-- The two `removeNeighbor` calls of the blocked-edge loop. -/
def removePair (m : Adj) (a b : String) : Adj := removeNeighbor (removeNeighbor m a b) b a

/-- Consecutive id pairs of the sorted scene table, the sequential edges. -/
def consecutivePairs (scenes : List Scene) : List (String × String) :=
  (scenes.zip scenes.tail).map (fun p => (p.1.id, p.2.id))

/-- Step 3a of the canonical script: insert every sequential edge in both
directions. -/
def seqPhase (scenes : List Scene) (m : Adj) : Adj :=
  (consecutivePairs scenes).foldl (fun m p => addPair m p.1 p.2) m

/-- One row of `manual_edges.csv` or `blocked_edges.csv` (`from`, `to`). -/
structure EdgeRow where
  fromId : String
  toId : String
deriving DecidableEq

/-- The ids of the scene table, the key set of `sceneById`. -/
def sceneIds (scenes : List Scene) : List String := scenes.map (fun s => s.id)

/-- Step 3b of the canonical script: insert each manual edge in both directions,
silently skipping pairs whose ids are not both in the scene table. -/
def manualPhase (ids : List String) (manual : List EdgeRow) (m : Adj) : Adj :=
  manual.foldl
    (fun m e => if e.fromId ∈ ids ∧ e.toId ∈ ids then addPair m e.fromId e.toId else m) m

/-- One proximity candidate as stored in `bestByBucket`. -/
structure Cand where
  bId : String
  d : ℝ
  bucket : ℤ

/-- Lookup in the insertion-ordered association list modelling `bestByBucket`. -/
def lookupBucket (l : List (ℤ × Cand)) (b : ℤ) : Option Cand :=
  (l.find? (fun p => p.1 == b)).map (fun p => p.2)

/-- `Map.set` on an existing key keeps its insertion position. -/
def replaceBucket (l : List (ℤ × Cand)) (b : ℤ) (c : Cand) : List (ℤ × Cand) :=
  l.map (fun p => if p.1 == b then (b, c) else p)

/-- The bucket classification of the candidate `t` seen from node `a`: bearing,
then yaw relative to `a`'s heading, then nearest cardinal bucket. -/
noncomputable def classifyOf (a t : Node) : Option ℤ :=
  let brg := bearingDeg a.x a.y t.x t.y
  let yaw := normalize180 (brg - (a.headingDeg : ℝ))
  nearestCardinalBucket yaw

/-- One iteration of the candidate scan of the proximity loop: skip `a` itself
and anything outside `LINK_RADIUS` or outside every bucket; keep per bucket
only the strictly nearest candidate, earlier ones winning ties. -/
noncomputable def candStep (a : Node) (best : List (ℤ × Cand)) (t : Node) :
    List (ℤ × Cand) :=
  if t.id = a.id then best
  else if dist a t > LINK_RADIUS then best
  else
    match classifyOf a t with
    | none => best
    | some bucket =>
      match lookupBucket best bucket with
      | none => best ++ [(bucket, { bId := t.id, d := dist a t, bucket := bucket })]
      | some prev =>
        if dist a t < prev.d then
          replaceBucket best bucket { bId := t.id, d := dist a t, bucket := bucket }
        else best

/-- The inner candidate scan of the proximity loop for node `a`
(the `bestByBucket` map, in key-insertion order). -/
noncomputable def candScan (a : Node) (nodes : List Node) : List (ℤ × Cand) :=
  nodes.foldl (candStep a) []

/-- Models `winners`: the per-bucket bests in insertion order, stably sorted by
distance, cut to `MAX_PROX_LINKS_PER_NODE`. -/
noncomputable def winnersOf (a : Node) (nodes : List Node) : List Cand :=
  (sortByKeyR (fun c => c.d) ((candScan a nodes).map (fun p => p.2))).take
    MAX_PROX_LINKS_PER_NODE

/-- The `nodeById` map: last binding wins, as in a JS `Map` built from a list. -/
def nodeOf (nodes : List Node) (i : String) : Option Node :=
  nodes.foldl (fun acc n => fun k => if k = n.id then some n else acc k) (fun _ => none) i

/-- The reciprocity check applied to one winner of node `a`: the bucket looking
back from the winner must be the exact geometric opposite. -/
noncomputable def reciprocalOk (nodes : List Node) (a : Node) (w : Cand) : Bool :=
  match nodeOf nodes w.bId with
  | none => false
  | some bNode =>
    match classifyOf bNode a, reciprocalBucket w.bucket with
    | some bucketBA, some expected => bucketBA == expected
    | _, _ => false

/-- Models the body of `for (const w of winners)`: winners failing the
reciprocity check (when enabled) are skipped. -/
noncomputable def acceptedWinners (req : Bool) (nodes : List Node) (a : Node) : List Cand :=
  if req then (winnersOf a nodes).filter (fun w => reciprocalOk nodes a w)
  else winnersOf a nodes

/-- Step 3c of the canonical script: for every node, insert its accepted
proximity winners in both directions. -/
noncomputable def proxPhase (req : Bool) (nodes : List Node) (m : Adj) : Adj :=
  nodes.foldl
    (fun m a => (acceptedWinners req nodes a).foldl (fun m w => addPair m a.id w.bId) m) m

/-- Step 3d of the canonical script: remove every blocked edge in both
directions. -/
def blockedPhase (blocked : List EdgeRow) (m : Adj) : Adj :=
  blocked.foldl (fun m e => removePair m e.fromId e.toId) m

/-- The whole neighbor graph of the canonical script, from the parsed scene
table and the optional manual and blocked edge lists. -/
noncomputable def pipelineAdj (scenes : List Scene) (manual blocked : List EdgeRow) : Adj :=
  let sorted := sortScenes scenes
  let nodes := nodesSnapped sorted
  blockedPhase blocked
    (proxPhase REQUIRE_RECIPROCAL nodes
      (manualPhase (sceneIds sorted) manual
        (seqPhase sorted Adj.empty)))

/-- Models the hotspot yaw of step 4: screen-relative bearing toward the
target, optionally snapped to the nearest bucket. -/
noncomputable def hotspotYaw (fromNode toNode : Node) : ℝ :=
  let brg := bearingDeg fromNode.x fromNode.y toNode.x toNode.y
  let yaw := normalize180 (brg - (fromNode.headingDeg : ℝ))
  if SNAP_HOTSPOT_YAW then
    match nearestCardinalBucket yaw with
    | some b => (b : ℝ)
    | none => yaw
  else yaw

/-! ## Helper lemmas: truncated remainder and angle normalization -/

theorem rtrunc_of_nonneg {x : ℝ} (h : 0 ≤ x) : rtrunc x = ⌊x⌋ := by
  simp [rtrunc, h]

theorem rtrunc_of_neg {x : ℝ} (h : x < 0) : rtrunc x = ⌈x⌉ := by
  simp [rtrunc, not_le.mpr h]

theorem jsMod_eval {a b : ℝ} (n : ℤ) (h : rtrunc (a / b) = n) : jsMod a b = a - b * n := by
  simp [jsMod, h]

theorem rtruncQ_of_nonneg {x : ℚ} (h : 0 ≤ x) : rtruncQ x = ⌊x⌋ := by
  simp [rtruncQ, h]

theorem rtruncQ_of_neg {x : ℚ} (h : x < 0) : rtruncQ x = ⌈x⌉ := by
  simp [rtruncQ, not_le.mpr h]

theorem jsModQ_eval {a b : ℚ} (n : ℤ) (h : rtruncQ (a / b) = n) : jsModQ a b = a - b * n := by
  simp [jsModQ, h]

theorem jsMod_middle {a : ℝ} (h1 : 0 ≤ a) (h2 : a < 360) : jsMod a 360 = a := by
  have hf : rtrunc (a / 360) = 0 := by
    rw [rtrunc_of_nonneg (div_nonneg (by linarith) (by norm_num))]
    rw [Int.floor_eq_iff]
    constructor
    · push_cast
      exact div_nonneg (by linarith) (by norm_num)
    · push_cast
      rw [div_lt_iff (by norm_num : (0:ℝ) < 360)]
      linarith
  rw [jsMod_eval 0 hf]
  norm_num

theorem normalize180_of_mem {deg : ℝ} (h1 : -180 < deg) (h2 : deg < 180) :
    normalize180 deg = deg := by
  have s1 : jsMod (deg + 180) 360 = deg + 180 := jsMod_middle (by linarith) (by linarith)
  have s2 : jsMod (deg + 180 + 360) 360 = deg + 180 := by
    have hf : rtrunc ((deg + 180 + 360) / 360) = 1 := by
      rw [rtrunc_of_nonneg (div_nonneg (by linarith) (by norm_num))]
      rw [Int.floor_eq_iff]
      constructor
      · push_cast
        rw [le_div_iff (by norm_num : (0:ℝ) < 360)]
        linarith
      · push_cast
        rw [div_lt_iff (by norm_num : (0:ℝ) < 360)]
        linarith
    rw [jsMod_eval 1 hf]
    push_cast
    ring
  simp only [normalize180, s1, s2]
  rw [if_neg (by intro h; linarith)]
  ring

theorem normalize180_180 : normalize180 (180 : ℝ) = 180 := by
  have s1 : jsMod ((180 : ℝ) + 180) 360 = 0 := by
    have hf : rtrunc ((360 : ℝ) / 360) = 1 := by
      rw [rtrunc_of_nonneg (by norm_num)]
      norm_num
    rw [show ((180:ℝ) + 180) = 360 by norm_num, jsMod_eval 1 hf]
    norm_num
  have s2 : jsMod ((0 : ℝ) + 360) 360 = 0 := by
    have hf : rtrunc (((0:ℝ) + 360) / 360) = 1 := by
      rw [rtrunc_of_nonneg (by norm_num)]
      norm_num
    rw [jsMod_eval 1 hf]
    norm_num
  simp only [normalize180, s1, s2]
  norm_num

theorem normalize180_neg180 : normalize180 (-180 : ℝ) = 180 := by
  have s1 : jsMod ((-180 : ℝ) + 180) 360 = 0 := by
    rw [show ((-180:ℝ) + 180) = 0 by norm_num]
    exact jsMod_middle le_rfl (by norm_num)
  have s2 : jsMod ((0 : ℝ) + 360) 360 = 0 := by
    have hf : rtrunc (((0:ℝ) + 360) / 360) = 1 := by
      rw [rtrunc_of_nonneg (by norm_num)]
      norm_num
    rw [jsMod_eval 1 hf]
    norm_num
  simp only [normalize180, s1, s2]
  norm_num

theorem normalize180_of_upper {deg : ℝ} (h1 : 180 < deg) (h2 : deg ≤ 360) :
    normalize180 deg = deg - 360 := by
  have s1 : jsMod (deg + 180) 360 = deg - 180 := by
    have hf : rtrunc ((deg + 180) / 360) = 1 := by
      rw [rtrunc_of_nonneg (div_nonneg (by linarith) (by norm_num))]
      rw [Int.floor_eq_iff]
      constructor
      · push_cast
        rw [le_div_iff (by norm_num : (0:ℝ) < 360)]
        linarith
      · push_cast
        rw [div_lt_iff (by norm_num : (0:ℝ) < 360)]
        linarith
    rw [jsMod_eval 1 hf]
    push_cast
    ring
  have s2 : jsMod (deg - 180 + 360) 360 = deg - 180 := by
    have hf : rtrunc ((deg - 180 + 360) / 360) = 1 := by
      rw [rtrunc_of_nonneg (div_nonneg (by linarith) (by norm_num))]
      rw [Int.floor_eq_iff]
      constructor
      · push_cast
        rw [le_div_iff (by norm_num : (0:ℝ) < 360)]
        linarith
      · push_cast
        rw [div_lt_iff (by norm_num : (0:ℝ) < 360)]
        linarith
    rw [jsMod_eval 1 hf]
    push_cast
    ring
  simp only [normalize180, s1, s2]
  rw [if_neg (by intro h; linarith)]
  ring

theorem normalize180_of_lower {deg : ℝ} (h1 : -360 ≤ deg) (h2 : deg < -180) :
    normalize180 deg = deg + 360 := by
  have hneg : deg + 180 < 0 := by linarith
  have s1 : jsMod (deg + 180) 360 = deg + 180 := by
    have hf : rtrunc ((deg + 180) / 360) = 0 := by
      rw [rtrunc_of_neg (by rw [div_neg_iff]; right; constructor <;> linarith)]
      rw [Int.ceil_eq_iff]
      constructor
      · push_cast
        rw [lt_div_iff (by norm_num : (0:ℝ) < 360)]
        linarith
      · push_cast
        rw [div_le_iff (by norm_num : (0:ℝ) < 360)]
        linarith
    rw [jsMod_eval 0 hf]
    norm_num
  have s2 : jsMod (deg + 180 + 360) 360 = deg + 540 := by
    have hf : rtrunc ((deg + 180 + 360) / 360) = 0 := by
      rw [rtrunc_of_nonneg (div_nonneg (by linarith) (by norm_num))]
      rw [Int.floor_eq_iff]
      constructor
      · push_cast
        exact div_nonneg (by linarith) (by norm_num)
      · push_cast
        rw [div_lt_iff (by norm_num : (0:ℝ) < 360)]
        linarith
    rw [jsMod_eval 0 hf]
    ring
  simp only [normalize180, s1, s2]
  rw [if_neg (by intro h; linarith)]
  ring

/-! ## Helper lemmas: bearings, buckets, distances, snapping -/

theorem atan2_zero_pos {x : ℝ} (h : 0 < x) : atan2 0 x = 0 := by
  rw [atan2, if_pos h, zero_div, Real.arctan_zero]

theorem atan2_zero_neg {x : ℝ} (h : x < 0) : atan2 0 x = Real.pi := by
  rw [atan2, if_neg (by linarith), if_pos h, if_pos le_rfl, zero_div, Real.arctan_zero, zero_add]

theorem bearingDeg_north {ax ay by' : ℝ} (h : by' < ay) : bearingDeg ax ay ax by' = 0 := by
  have hx : ax - ax = 0 := sub_self ax
  have hpos : (0:ℝ) < -(by' - ay) := by linarith
  rw [bearingDeg]
  simp only [hx]
  rw [atan2_zero_pos hpos, zero_mul, zero_div, zero_add]
  have hf : rtrunc ((360:ℝ) / 360) = 1 := by
    rw [rtrunc_of_nonneg (by norm_num)]
    norm_num
  rw [jsMod_eval 1 hf]
  norm_num

theorem bearingDeg_south {ax ay by' : ℝ} (h : ay < by') : bearingDeg ax ay ax by' = 180 := by
  have hx : ax - ax = 0 := sub_self ax
  have hneg : -(by' - ay) < 0 := by linarith
  rw [bearingDeg]
  simp only [hx]
  rw [atan2_zero_neg hneg]
  rw [show Real.pi * 180 / Real.pi = 180 by
    rw [mul_comm, mul_div_assoc, div_self Real.pi_ne_zero, mul_one]]
  have hf : rtrunc ((180 + 360 : ℝ) / 360) = 1 := by
    rw [rtrunc_of_nonneg (by norm_num)]
    norm_num
  rw [jsMod_eval 1 hf]
  norm_num

theorem ncb_zero : nearestCardinalBucket (0:ℝ) = some 0 := by
  norm_num [nearestCardinalBucket, cardinalFold, TURN_TOL, normalize180_of_mem,
    normalize180_180, normalize180_neg180, normalize180_of_upper, normalize180_of_lower]

theorem ncb_ninety : nearestCardinalBucket (90:ℝ) = some 90 := by
  norm_num [nearestCardinalBucket, cardinalFold, TURN_TOL, normalize180_of_mem,
    normalize180_180, normalize180_neg180, normalize180_of_upper, normalize180_of_lower]

theorem ncb_oneeighty : nearestCardinalBucket (180:ℝ) = some 180 := by
  norm_num [nearestCardinalBucket, cardinalFold, TURN_TOL, normalize180_of_mem,
    normalize180_180, normalize180_neg180, normalize180_of_upper, normalize180_of_lower]

theorem dist_vertical {i j : String} {x y1 y2 : ℝ} {h1 h2 : ℚ} :
    dist { id := i, x := x, y := y1, headingDeg := h1 }
      { id := j, x := x, y := y2, headingDeg := h2 } = |y1 - y2| := by
  simp only [dist, sub_self, mul_zero, zero_mul, zero_add]
  rw [show (y1 - y2) * (y1 - y2) = (y1 - y2) ^ 2 by ring, Real.sqrt_sq_eq_abs]

theorem snapToGrid_zero : snapToGrid 0 GRID_STEP = 0 := by
  rw [snapToGrid, GRID_STEP, roundHalfAwayFromZero]
  norm_num

theorem snapToGrid_neg_five : snapToGrid (-5) GRID_STEP = -5 := by
  rw [snapToGrid, GRID_STEP, roundHalfAwayFromZero, if_neg (by norm_num)]
  rw [show ⌈(-5:ℝ) / 5 - 1 / 2⌉ = -1 by rw [Int.ceil_eq_iff] <;> norm_num]
  norm_num

theorem snapToGrid_neg_ten : snapToGrid (-10) GRID_STEP = -10 := by
  rw [snapToGrid, GRID_STEP, roundHalfAwayFromZero, if_neg (by norm_num)]
  rw [show ⌈(-10:ℝ) / 5 - 1 / 2⌉ = -2 by rw [Int.ceil_eq_iff] <;> norm_num]
  norm_num

theorem theta_zero : (((0:ℚ):ℝ) * Real.pi) / 180 = 0 := by
  push_cast
  ring

/-! ## Loader lemmas -/

theorem jsModQ_eval_nonneg {a b : ℚ} (n : ℤ) (hd : 0 ≤ a / b) (h : ⌊a / b⌋ = n) :
    jsModQ a b = a - b * n := by
  rw [jsModQ, rtruncQ_of_nonneg hd, h]

theorem jsModQ_eval_neg {a b : ℚ} (n : ℤ) (hd : a / b < 0) (h : ⌈a / b⌉ = n) :
    jsModQ a b = a - b * n := by
  rw [jsModQ, rtruncQ_of_neg hd, h]

theorem jsModQ_nonneg_bounds {a b : ℚ} (hb : 0 < b) (ha : 0 ≤ a) :
    0 ≤ jsModQ a b ∧ jsModQ a b < b := by
  have hd : 0 ≤ a / b := div_nonneg ha hb.le
  rw [jsModQ, rtruncQ_of_nonneg hd]
  have hfr : a - b * ⌊a / b⌋ = b * Int.fract (a / b) := by
    rw [Int.fract]
    field_simp
  rw [hfr]
  constructor
  · exact mul_nonneg hb.le (Int.fract_nonneg _)
  · have h1 : b * Int.fract (a / b) < b * 1 := mul_lt_mul_of_pos_left (Int.fract_lt_one _) hb
    linarith

theorem jsModQ_neg_eq {a b : ℚ} (hb : 0 < b) (ha : a < 0) :
    jsModQ a b = -jsModQ (-a) b := by
  have hd : a / b < 0 := div_neg_of_neg_of_pos ha hb
  have hd2 : 0 ≤ -a / b := div_nonneg (by linarith) hb.le
  rw [jsModQ, rtruncQ_of_neg hd, jsModQ, rtruncQ_of_nonneg hd2]
  rw [show ⌈a / b⌉ = -⌊-(a / b)⌋ by rw [Int.floor_neg, neg_neg]]
  rw [show -a / b = -(a / b) by ring]
  push_cast
  ring

theorem numericHeading_bounds (q : ℚ) :
    0 ≤ jsModQ (jsModQ q 360 + 360) 360 ∧ jsModQ (jsModQ q 360 + 360) 360 < 360 := by
  have h360 : (0:ℚ) < 360 := by norm_num
  have inner : -360 < jsModQ q 360 ∧ jsModQ q 360 ≤ 360 := by
    rcases le_or_lt 0 q with hq | hq
    · have h := jsModQ_nonneg_bounds h360 hq
      exact ⟨by linarith [h.1], by linarith [h.2]⟩
    · rw [jsModQ_neg_eq h360 hq]
      have h := jsModQ_nonneg_bounds h360 (by linarith : (0:ℚ) ≤ -q)
      exact ⟨by linarith [h.2], by linarith [h.1]⟩
  exact jsModQ_nonneg_bounds h360 (by linarith [inner.1])

theorem parseDecimalCore_isSome {cs : List Char} (h : numTokCore cs = true) :
    ∃ q, parseDecimalCore cs = some q := by
  rw [numTokCore] at h
  rw [parseDecimalCore]
  simp only [Bool.and_eq_true, Bool.or_eq_true, Bool.not_eq_true'] at h
  obtain ⟨hint, hrest⟩ := h
  rcases hrest with hrest | hrest
  · rw [if_pos hrest, if_neg (by simp [hint])]
    exact ⟨_, rfl⟩
  · have hne : ((cs.drop (cs.takeWhile Char.isDigit).length).isEmpty) = false := by
      rcases hrest with ⟨⟨hdot, _⟩, _⟩
      cases hcs : cs.drop (cs.takeWhile Char.isDigit).length with
      | nil => rw [hcs] at hdot; simp at hdot
      | cons c t => simp
    rw [if_neg (by simp [hne]), if_pos]
    · exact ⟨_, rfl⟩
    · simp only [Bool.and_eq_true, Bool.not_eq_true']
      rcases hrest with ⟨⟨hdot, htne⟩, hall⟩
      exact ⟨⟨⟨by simpa using hdot, by simpa using htne⟩, hall⟩, hint⟩

theorem parseSignedDecimal_isSome {s : String} (h : isNumericToken s = true) :
    ∃ q, parseSignedDecimal s.toList = some q := by
  rw [isNumericToken] at h
  rw [parseSignedDecimal]
  by_cases hm : s.toList.head? = some '-'
  · rw [if_pos hm] at h
    rw [if_pos hm]
    obtain ⟨q, hq⟩ := parseDecimalCore_isSome h
    exact ⟨-q, by rw [hq]; rfl⟩
  · rw [if_neg hm] at h
    rw [if_neg hm]
    exact parseDecimalCore_isSome h

theorem headingToDeg_of_token {s : String}
    (h : isNumericToken (jsToUpper (jsTrim s)) = true) :
    ∃ q, headingToDeg s = some q ∧ headingToDegLegacy s = some q ∧ 0 ≤ q ∧ q < 360 := by
  have hs : ¬(s = "") := by
    intro he
    rw [he] at h
    exact absurd h (by decide)
  rw [headingToDeg, headingToDegLegacy, if_neg hs, if_neg hs]
  simp only [if_pos h]
  obtain ⟨q, hq⟩ := parseSignedDecimal_isSome h
  rw [numericHeading, hq]
  have hb := numericHeading_bounds q
  exact ⟨jsModQ (jsModQ q 360 + 360) 360, rfl, rfl, hb.1, hb.2⟩

/-- A scene row whose trimmed id or filename is empty, or whose trimmed heading
does not parse, makes the canonical loader throw. -/
theorem parseSceneRow_fatal {r : RawRow}
    (h : jsTrim r.id = "" ∨ jsTrim r.filename = "" ∨ headingToDeg (jsTrim r.heading) = none) :
    isOkE (parseSceneRow r) = false := by
  rw [parseSceneRow]
  by_cases h1 : jsTrim r.id = ""
  · rw [if_pos h1]; rfl
  · rw [if_neg h1]
    by_cases h2 : jsTrim r.filename = ""
    · rw [if_pos h2]; rfl
    · rw [if_neg h2]
      have h3 : headingToDeg (jsTrim r.heading) = none := by
        rcases h with h | h | h
        · exact absurd h h1
        · exact absurd h h2
        · exact h
      simp only [h3]
      rfl

/-- A single throwing row aborts the whole `rows.map(...)`. -/
theorem parseScenes_fatal {rows : List RawRow} {r : RawRow} (hmem : r ∈ rows)
    (hbad : isOkE (parseSceneRow r) = false) : isOkE (parseScenes rows) = false := by
  induction rows with
  | nil => cases hmem
  | cons a rest ih =>
    rw [parseScenes]
    rcases List.mem_cons.mp hmem with h | hmem'
    · cases hp : parseSceneRow a with
      | error e => simp only [hp]; rfl
      | ok s =>
        rw [h, hp] at hbad
        exact absurd hbad (by simp [isOkE])
    · cases hp : parseSceneRow a with
      | error e => simp only [hp]; rfl
      | ok s =>
        simp only [hp]
        cases hr : parseScenes rest with
        | error e => simp only [hr]; rfl
        | ok ss =>
          rw [hr] at ih
          exact absurd (ih hmem') (by simp [isOkE])

/-- The stored `moveHeadingDeg` of a successfully parsed row. -/
theorem parseSceneRow_move {r : RawRow} {s : Scene} (h : parseSceneRow r = Except.ok s) :
    s.moveHeadingDeg =
      (if jsTrim r.moveHeading = "" then none else headingToDeg (jsTrim r.moveHeading)) := by
  rw [parseSceneRow] at h
  by_cases h1 : jsTrim r.id = ""
  · rw [if_pos h1] at h; cases h
  · rw [if_neg h1] at h
    by_cases h2 : jsTrim r.filename = ""
    · rw [if_pos h2] at h; cases h
    · rw [if_neg h2] at h
      cases h3 : headingToDeg (jsTrim r.heading) with
      | none =>
        simp only [h3] at h
        exact absurd h (by simp)
      | some hd =>
        simp only [h3] at h
        have hs := (Except.ok.injEq _ _).mp h
        rw [← hs]
        by_cases h4 : jsTrim r.moveHeading = ""
        · simp [h4]
        · simp [h4]

theorem numericHeading_225 : numericHeading "225" = some 225 := by
  have h2 : parseSignedDecimal ("225".toList) = some ((225:ℕ) : ℚ) := rfl
  rw [numericHeading, h2, Option.map_some']
  have e1 : jsModQ ((225:ℕ) : ℚ) 360 = 225 := by
    rw [jsModQ_eval_nonneg 0 (by norm_num) (by norm_num)]
    norm_num
  rw [e1]
  have e2 : jsModQ ((225:ℚ) + 360) 360 = 225 := by
    rw [jsModQ_eval_nonneg 1 (by norm_num) (by norm_num)]
    norm_num
  rw [e2]

theorem numericHeading_neg90 : numericHeading "-90" = some 270 := by
  have h2 : parseSignedDecimal ("-90".toList) = some (-((90:ℕ) : ℚ)) := rfl
  rw [numericHeading, h2, Option.map_some']
  have e1 : jsModQ (-((90:ℕ) : ℚ)) 360 = -90 := by
    rw [jsModQ_eval_neg 0 (by norm_num) (by rw [Int.ceil_eq_iff]; norm_num)]
    norm_num
  rw [e1]
  have e2 : jsModQ ((-90:ℚ) + 360) 360 = 270 := by
    rw [jsModQ_eval_nonneg 0 (by norm_num) (by norm_num)]
    norm_num
  rw [e2]

theorem numericHeading_450 : numericHeading "450" = some 90 := by
  have h2 : parseSignedDecimal ("450".toList) = some ((450:ℕ) : ℚ) := rfl
  rw [numericHeading, h2, Option.map_some']
  have e1 : jsModQ ((450:ℕ) : ℚ) 360 = 90 := by
    rw [jsModQ_eval_nonneg 1 (by norm_num) (by norm_num)]
    norm_num
  rw [e1]
  have e2 : jsModQ ((90:ℚ) + 360) 360 = 90 := by
    rw [jsModQ_eval_nonneg 1 (by norm_num) (by norm_num)]
    norm_num
  rw [e2]

theorem numericHeading_360 : numericHeading "360" = some 0 := by
  have h2 : parseSignedDecimal ("360".toList) = some ((360:ℕ) : ℚ) := rfl
  rw [numericHeading, h2, Option.map_some']
  have e1 : jsModQ ((360:ℕ) : ℚ) 360 = 0 := by
    rw [jsModQ_eval_nonneg 1 (by norm_num) (by norm_num)]
    norm_num
  rw [e1]
  have e2 : jsModQ ((0:ℚ) + 360) 360 = 0 := by
    rw [jsModQ_eval_nonneg 1 (by norm_num) (by norm_num)]
    norm_num
  rw [e2]

/-- Observation of the stored `moveHeadingDeg` of a parsed row, for concrete runs. -/
def moveOfRow (r : RawRow) : Option (Option ℚ) :=
  match parseSceneRow r with
  | Except.ok s => some s.moveHeadingDeg
  | Except.error _ => none

/-! ## Claims C9, C10, C3 -/

/-- C9: the heading token "s" parses to 180 degrees in either letter case,
"225" parses to 225 degrees, and an unrecognized heading token, a missing id
or a missing filename in any manifest row makes the whole build abort with an
error. -/
theorem c9_heading_fatal :
    headingToDeg "s" = some 180 ∧ headingToDeg "S" = some 180 ∧
    headingToDeg "225" = some 225 ∧ headingToDeg "NNE-typo" = none ∧
    ∀ (rows : List RawRow) (r : RawRow), r ∈ rows →
      (jsTrim r.id = "" ∨ jsTrim r.filename = "" ∨ headingToDeg (jsTrim r.heading) = none) →
      isOkE (parseScenes rows) = false := by
  refine ⟨by decide, by decide, ?_, by decide, ?_⟩
  · rw [show headingToDeg "225" = numericHeading "225" from rfl, numericHeading_225]
  · intro rows r hmem hbad
    exact parseScenes_fatal hmem (parseSceneRow_fatal hbad)

/-- Witness for C9 at a one-row manifest whose heading token is "NNE-typo". -/
theorem c9_witness :
    ((⟨"1", "", "", "", "", "p.jpg", "NNE-typo", "", ""⟩ : RawRow) ∈
        [(⟨"1", "", "", "", "", "p.jpg", "NNE-typo", "", ""⟩ : RawRow)]) ∧
    isOkE (parseScenes [(⟨"1", "", "", "", "", "p.jpg", "NNE-typo", "", ""⟩ : RawRow)]) = false := by
  refine ⟨List.mem_singleton.mpr rfl, ?_⟩
  exact c9_heading_fatal.2.2.2.2 _ _ (List.mem_singleton.mpr rfl)
    (Or.inr (Or.inr (by decide)))

/-- C10: the heading parser accepts any numeric degree string, including
negative and out-of-range values, and normalizes it modulo 360 into [0, 360)
rather than rejecting it, in both the canonical and the legacy script. -/
theorem c10_numeric_heading :
    headingToDeg "-90" = some 270 ∧ headingToDeg "450" = some 90 ∧
    headingToDeg "360" = some 0 ∧
    headingToDegLegacy "-90" = some 270 ∧ headingToDegLegacy "450" = some 90 ∧
    headingToDegLegacy "360" = some 0 ∧
    ∀ s : String, isNumericToken (jsToUpper (jsTrim s)) = true →
      ∃ q, headingToDeg s = some q ∧ headingToDegLegacy s = some q ∧ 0 ≤ q ∧ q < 360 := by
  refine ⟨?_, ?_, ?_, ?_, ?_, ?_, fun s h => headingToDeg_of_token h⟩
  · rw [show headingToDeg "-90" = numericHeading "-90" from rfl, numericHeading_neg90]
  · rw [show headingToDeg "450" = numericHeading "450" from rfl, numericHeading_450]
  · rw [show headingToDeg "360" = numericHeading "360" from rfl, numericHeading_360]
  · rw [show headingToDegLegacy "-90" = numericHeading "-90" from rfl, numericHeading_neg90]
  · rw [show headingToDegLegacy "450" = numericHeading "450" from rfl, numericHeading_450]
  · rw [show headingToDegLegacy "360" = numericHeading "360" from rfl, numericHeading_360]

/-- Witness for C10 at the numeric heading string "725". -/
theorem c10_witness :
    isNumericToken (jsToUpper (jsTrim "725")) = true ∧
    ∃ q, headingToDeg "725" = some q ∧ headingToDegLegacy "725" = some q ∧
      0 ≤ q ∧ q < 360 :=
  ⟨by decide, c10_numeric_heading.2.2.2.2.2.2 "725" (by decide)⟩

/-- C3 as amended: an absent moveHeading is stored as null and dead-reckoning
then falls back to that scene's headingDeg; a present but unparseable
moveHeading is silently stored as null as well (falling back the same way)
instead of aborting the build, and such a row still parses successfully. -/
theorem c3_amended :
    (∀ (r : RawRow) (s : Scene), parseSceneRow r = Except.ok s →
        s.moveHeadingDeg =
          (if jsTrim r.moveHeading = "" then none else headingToDeg (jsTrim r.moveHeading))) ∧
    (∀ (p : ℝ × ℝ) (s : Scene), s.moveHeadingDeg = none →
        drStep p s =
          (p.1 + (s.stepMeters : ℝ) * Real.sin ((s.headingDeg : ℝ) * Real.pi / 180),
           p.2 - (s.stepMeters : ℝ) * Real.cos ((s.headingDeg : ℝ) * Real.pi / 180))) ∧
    (∀ r : RawRow, jsTrim r.id ≠ "" → jsTrim r.filename ≠ "" →
        (headingToDeg (jsTrim r.heading)).isSome = true →
        isOkE (parseSceneRow r) = true) := by
  refine ⟨fun r s h => parseSceneRow_move h, ?_, ?_⟩
  · intro p s h
    simp [drStep, h]
  · intro r h1 h2 h3
    rw [parseSceneRow, if_neg h1, if_neg h2]
    cases hh : headingToDeg (jsTrim r.heading) with
    | none => rw [hh] at h3; exact absurd h3 (by simp)
    | some hd => simp only [hh]; rfl

/-- Witness for C3 at a complete row with an empty moveHeading column. -/
theorem c3_witness :
    jsTrim "3" ≠ "" ∧ jsTrim "p3.jpg" ≠ "" ∧
    (headingToDeg (jsTrim "N")).isSome = true ∧
    isOkE (parseSceneRow ⟨"3", "", "", "", "", "p3.jpg", "N", "", "5"⟩) = true :=
  ⟨by decide, by decide, by decide,
    c3_amended.2.2 ⟨"3", "", "", "", "", "p3.jpg", "N", "", "5"⟩ (by decide) (by decide) (by decide)⟩

/-- Counterexample to C3 as stated: a row whose moveHeading column holds the
unparseable token "XYZ" does not abort the build; it parses successfully and
stores a null movement heading. -/
theorem c3_counterexample :
    isOkE (parseSceneRow ⟨"7", "", "", "", "", "pano7.jpg", "N", "XYZ", "5"⟩) = true ∧
    moveOfRow ⟨"7", "", "", "", "", "pano7.jpg", "N", "XYZ", "5"⟩ = some none := by
  exact ⟨rfl, rfl⟩

/-! ## Positioner lemmas -/

/-- Default node used with `List.getD`. -/
noncomputable def dfltNode : Node := { id := "", x := 0, y := 0, headingDeg := 0 }

/-- Default scene used with `List.getD`. -/
def dfltScene : Scene :=
  { id := "", type := "", floor := "", sectionName := "", notes := "", filename := "",
    sceneKey := "", headingDeg := 0, moveHeadingDeg := none, stepMeters := 0 }

theorem nodesFrom_length (l : List Scene) : ∀ p : ℝ × ℝ, (nodesFrom p l).length = l.length := by
  induction l with
  | nil => intro p; rfl
  | cons s rest ih => intro p; simp [nodesFrom, ih]

/-- The canonical dead-reckoning recurrence: each node is the previous node
displaced by the previous scene's step along the previous scene's movement
heading (fallback: capture heading). -/
theorem nodesFrom_succ :
    ∀ (l : List Scene) (p : ℝ × ℝ) (i : ℕ), i + 1 < l.length →
      ((nodesFrom p l).getD (i + 1) dfltNode).x =
          ((nodesFrom p l).getD i dfltNode).x +
            ((l.getD i dfltScene).stepMeters : ℝ) *
              Real.sin ((((l.getD i dfltScene).moveHeadingDeg.getD
                  (l.getD i dfltScene).headingDeg : ℚ) : ℝ) * Real.pi / 180) ∧
      ((nodesFrom p l).getD (i + 1) dfltNode).y =
          ((nodesFrom p l).getD i dfltNode).y -
            ((l.getD i dfltScene).stepMeters : ℝ) *
              Real.cos ((((l.getD i dfltScene).moveHeadingDeg.getD
                  (l.getD i dfltScene).headingDeg : ℚ) : ℝ) * Real.pi / 180) := by
  intro l
  induction l with
  | nil => intro p i h; simp at h
  | cons s rest ih =>
    intro p i h
    cases i with
    | zero =>
      cases rest with
      | nil => simp at h
      | cons t rest2 =>
        simp [nodesFrom, drStep, List.getD_cons_zero, List.getD_cons_succ]
    | succ j =>
      have h2 : j + 1 < rest.length := by simpa [List.length_cons] using h
      have hr := ih (drStep p s) j h2
      simpa [nodesFrom, List.getD_cons_succ] using hr

theorem nodesRaw_origin (scenes : List Scene) (h : scenes ≠ []) :
    ((nodesRaw scenes).getD 0 dfltNode).x = 0 ∧ ((nodesRaw scenes).getD 0 dfltNode).y = 0 := by
  cases scenes with
  | nil => exact absurd rfl h
  | cons s rest => simp [nodesRaw, nodesFrom]

theorem nodesFromLegacy_zero :
    ∀ (l : List Scene) (p : ℝ × ℝ) (prev : Scene), l ≠ [] →
      ((nodesFromLegacy p prev l).getD 0 dfltNode).x =
          p.1 + ((l.getD 0 dfltScene).stepMeters : ℝ) *
            Real.sin ((prev.headingDeg : ℝ) * Real.pi / 180) ∧
      ((nodesFromLegacy p prev l).getD 0 dfltNode).y =
          p.2 - ((l.getD 0 dfltScene).stepMeters : ℝ) *
            Real.cos ((prev.headingDeg : ℝ) * Real.pi / 180) := by
  intro l p prev h
  cases l with
  | nil => exact absurd rfl h
  | cons cur rest => simp [nodesFromLegacy, drStepLegacy]

theorem nodesFromLegacy_succ :
    ∀ (l : List Scene) (p : ℝ × ℝ) (prev : Scene) (i : ℕ), i + 1 < l.length →
      ((nodesFromLegacy p prev l).getD (i + 1) dfltNode).x =
          ((nodesFromLegacy p prev l).getD i dfltNode).x +
            ((l.getD (i + 1) dfltScene).stepMeters : ℝ) *
              Real.sin (((l.getD i dfltScene).headingDeg : ℝ) * Real.pi / 180) ∧
      ((nodesFromLegacy p prev l).getD (i + 1) dfltNode).y =
          ((nodesFromLegacy p prev l).getD i dfltNode).y -
            ((l.getD (i + 1) dfltScene).stepMeters : ℝ) *
              Real.cos (((l.getD i dfltScene).headingDeg : ℝ) * Real.pi / 180) := by
  intro l
  induction l with
  | nil => intro p prev i h; simp at h
  | cons cur rest ih =>
    intro p prev i h
    cases i with
    | zero =>
      have hne : rest ≠ [] := by
        intro he
        rw [he] at h
        simp at h
      have h0 := nodesFromLegacy_zero rest (drStepLegacy p prev cur) cur hne
      simpa [nodesFromLegacy, List.getD_cons_zero, List.getD_cons_succ] using h0
    | succ j =>
      have h2 : j + 1 < rest.length := by simpa [List.length_cons] using h
      have hr := ih (drStepLegacy p prev cur) cur j h2
      simpa [nodesFromLegacy, List.getD_cons_succ] using hr

/-- The legacy dead-reckoning recurrence: heading from the previous scene,
distance from the current scene. -/
theorem nodesLegacy_succ (l : List Scene) (i : ℕ) (h : i + 1 < l.length) :
    ((nodesLegacy l).getD (i + 1) dfltNode).x =
        ((nodesLegacy l).getD i dfltNode).x +
          ((l.getD (i + 1) dfltScene).stepMeters : ℝ) *
            Real.sin (((l.getD i dfltScene).headingDeg : ℝ) * Real.pi / 180) ∧
    ((nodesLegacy l).getD (i + 1) dfltNode).y =
        ((nodesLegacy l).getD i dfltNode).y -
          ((l.getD (i + 1) dfltScene).stepMeters : ℝ) *
            Real.cos (((l.getD i dfltScene).headingDeg : ℝ) * Real.pi / 180) := by
  cases l with
  | nil => simp at h
  | cons s rest =>
    cases i with
    | zero =>
      have hne : rest ≠ [] := by
        intro he
        rw [he] at h
        simp at h
      have h0 := nodesFromLegacy_zero rest (0, 0) s hne
      simpa [nodesLegacy, List.getD_cons_zero, List.getD_cons_succ] using h0
    | succ j =>
      have h2 : j + 1 < rest.length := by simpa [List.length_cons] using h
      have hr := nodesFromLegacy_succ rest (0, 0) s j h2
      simpa [nodesLegacy, List.getD_cons_succ] using hr

/-! ## Claims C1 and C8 -/

/-- Sample scene with step 3 (heading north, no movement heading). -/
def sceneA : Scene :=
  { id := "1", type := "gen", floor := "", sectionName := "", notes := "a", filename := "a.jpg",
    sceneKey := "a", headingDeg := 0, moveHeadingDeg := none, stepMeters := 3 }

/-- Sample scene with step 7 (heading north, no movement heading). -/
def sceneB : Scene :=
  { id := "2", type := "gen", floor := "", sectionName := "", notes := "b", filename := "b.jpg",
    sceneKey := "b", headingDeg := 0, moveHeadingDeg := none, stepMeters := 7 }

/-- Counterexample to C1 as stated: with steps 3 then 7 on a due-north walk the
canonical script places the second scene at y = -3 (the previous scene's step),
not y = -7 (its own step) as the claim predicts. -/
theorem c1_counterexample :
    ((nodesRaw [sceneA, sceneB]).getD 1 dfltNode).y = -3 ∧
    ((nodesRaw [sceneA, sceneB]).getD 1 dfltNode).y ≠ -7 := by
  have h : ((nodesRaw [sceneA, sceneB]).getD 1 dfltNode).y = -3 := by
    simp only [nodesRaw, nodesFrom, drStep, sceneA, sceneB, List.getD_cons_succ,
      List.getD_cons_zero]
    simp only [Option.getD_none]
    rw [theta_zero, Real.cos_zero]
    norm_num
  exact ⟨h, by rw [h]; norm_num⟩

/-- C1 as amended: in the canonical script the first scene sits at the origin
and every displacement takes both the heading (moveHeadingDeg with fallback to
headingDeg) and the step distance from the previous scene's record; only the
legacy variant takes the distance from the destination record as the claim
stated. -/
theorem c1_amended :
    (∀ (scenes : List Scene) (i : ℕ), i + 1 < scenes.length →
      ((nodesRaw scenes).getD (i + 1) dfltNode).x =
          ((nodesRaw scenes).getD i dfltNode).x +
            ((scenes.getD i dfltScene).stepMeters : ℝ) *
              Real.sin ((((scenes.getD i dfltScene).moveHeadingDeg.getD
                  (scenes.getD i dfltScene).headingDeg : ℚ) : ℝ) * Real.pi / 180) ∧
      ((nodesRaw scenes).getD (i + 1) dfltNode).y =
          ((nodesRaw scenes).getD i dfltNode).y -
            ((scenes.getD i dfltScene).stepMeters : ℝ) *
              Real.cos ((((scenes.getD i dfltScene).moveHeadingDeg.getD
                  (scenes.getD i dfltScene).headingDeg : ℚ) : ℝ) * Real.pi / 180)) ∧
    (∀ scenes : List Scene, scenes ≠ [] →
      ((nodesRaw scenes).getD 0 dfltNode).x = 0 ∧ ((nodesRaw scenes).getD 0 dfltNode).y = 0) ∧
    (∀ (scenes : List Scene) (i : ℕ), i + 1 < scenes.length →
      ((nodesLegacy scenes).getD (i + 1) dfltNode).x =
          ((nodesLegacy scenes).getD i dfltNode).x +
            ((scenes.getD (i + 1) dfltScene).stepMeters : ℝ) *
              Real.sin (((scenes.getD i dfltScene).headingDeg : ℝ) * Real.pi / 180) ∧
      ((nodesLegacy scenes).getD (i + 1) dfltNode).y =
          ((nodesLegacy scenes).getD i dfltNode).y -
            ((scenes.getD (i + 1) dfltScene).stepMeters : ℝ) *
              Real.cos (((scenes.getD i dfltScene).headingDeg : ℝ) * Real.pi / 180)) :=
  ⟨fun scenes i h => nodesFrom_succ scenes (0, 0) i h,
   fun scenes h => nodesRaw_origin scenes h,
   fun scenes i h => nodesLegacy_succ scenes i h⟩

/-- Witness for C1 on the two-scene table with steps 3 and 7. -/
theorem c1_witness :
    (0 + 1 < ([sceneA, sceneB] : List Scene).length) ∧
    ((nodesRaw [sceneA, sceneB]).getD 1 dfltNode).x =
        ((nodesRaw [sceneA, sceneB]).getD 0 dfltNode).x +
          ((([sceneA, sceneB] : List Scene).getD 0 dfltScene).stepMeters : ℝ) *
            Real.sin ((((([sceneA, sceneB] : List Scene).getD 0 dfltScene).moveHeadingDeg.getD
                (([sceneA, sceneB] : List Scene).getD 0 dfltScene).headingDeg : ℚ) : ℝ) *
              Real.pi / 180) :=
  ⟨by simp, (c1_amended.1 [sceneA, sceneB] 0 (by simp)).1⟩

/-- C8: coordinates are snapped once, as a post-process over the finished raw
path, and the snap rounds half away from zero: with grid step 5, 7.5 snaps to
10, -7.5 snaps to -10 and 7.49 snaps to 5. -/
theorem c8_grid_snap :
    (∀ (scenes : List Scene) (i : ℕ), i < scenes.length →
      ((nodesSnapped scenes).getD i dfltNode).x =
          snapToGrid (((nodesRaw scenes).getD i dfltNode).x) GRID_STEP ∧
      ((nodesSnapped scenes).getD i dfltNode).y =
          snapToGrid (((nodesRaw scenes).getD i dfltNode).y) GRID_STEP) ∧
    snapToGrid (7.5 : ℝ) GRID_STEP = 10 ∧
    snapToGrid (-7.5 : ℝ) GRID_STEP = -10 ∧
    snapToGrid (7.49 : ℝ) GRID_STEP = 5 := by
  refine ⟨?_, ?_, ?_, ?_⟩
  · intro scenes i h
    have hl : i < (nodesRaw scenes).length := by
      rw [nodesRaw, nodesFrom_length]
      exact h
    have hm : i < (nodesSnapped scenes).length := by
      rw [nodesSnapped, List.length_map]
      exact hl
    rw [nodesSnapped, List.getD_eq_getElem _ _ (by simpa [nodesSnapped] using hm),
      List.getD_eq_getElem _ _ hl]
    simp
  · rw [snapToGrid, GRID_STEP, roundHalfAwayFromZero, if_pos (by norm_num)]
    norm_num
  · rw [snapToGrid, GRID_STEP, roundHalfAwayFromZero, if_neg (by norm_num)]
    rw [show ⌈(-7.5 : ℝ) / 5 - 1 / 2⌉ = -2 by rw [Int.ceil_eq_iff]; norm_num]
    norm_num
  · rw [snapToGrid, GRID_STEP, roundHalfAwayFromZero, if_pos (by norm_num)]
    norm_num

/-- Witness for C8 on a one-scene table. -/
theorem c8_witness :
    (0 < ([sceneA] : List Scene).length) ∧
    ((nodesSnapped [sceneA]).getD 0 dfltNode).x =
        snapToGrid (((nodesRaw [sceneA]).getD 0 dfltNode).x) GRID_STEP :=
  ⟨by simp, (c8_grid_snap.1 [sceneA] 0 (by simp)).1⟩

/-! ## Adjacency-structure lemmas -/

/-- Keys without an entry have an empty neighbor set; holds for every
adjacency structure the script ever builds. -/
def goodKeys (m : Adj) : Prop := ∀ k, k ∉ m.keys → m.nbrs k = ∅

theorem mem_addPair {m : Adj} {a b k x : String} :
    x ∈ (addPair m a b).nbrs k ↔ (k = a ∧ x = b) ∨ (k = b ∧ x = a) ∨ x ∈ m.nbrs k := by
  simp only [addPair, addNeighbor]
  by_cases h1 : k = b
  · by_cases h2 : b = a
    · subst h1; subst h2
      simp [Finset.mem_insert]
      try tauto
    · subst h1
      simp [h2, Finset.mem_insert]
      try tauto
  · by_cases h2 : k = a
    · subst h2
      simp [h1, Finset.mem_insert]
      try tauto
    · simp [h1, h2]
      try tauto

theorem mem_addNeighbor_keys {m : Adj} {a b x : String} :
    x ∈ (addNeighbor m a b).keys ↔ x = a ∨ x ∈ m.keys := by
  simp only [addNeighbor]
  split_ifs with h
  · constructor
    · intro hx
      exact Or.inr hx
    · rintro (rfl | hx)
      · exact h
      · exact hx
  · exact List.mem_cons

theorem mem_addPair_keys {m : Adj} {a b x : String} :
    x ∈ (addPair m a b).keys ↔ x = a ∨ x = b ∨ x ∈ m.keys := by
  rw [addPair, mem_addNeighbor_keys, mem_addNeighbor_keys]
  tauto

theorem removeNeighbor_keys (m : Adj) (a b : String) :
    (removeNeighbor m a b).keys = m.keys := by
  rw [removeNeighbor]
  split_ifs <;> rfl

theorem removePair_keys (m : Adj) (a b : String) : (removePair m a b).keys = m.keys := by
  rw [removePair, removeNeighbor_keys, removeNeighbor_keys]

theorem goodKeys_addNeighbor {m : Adj} (h : goodKeys m) (a b : String) :
    goodKeys (addNeighbor m a b) := by
  intro k hk
  simp only [addNeighbor] at hk ⊢
  split_ifs with he
  · subst he
    exact absurd (by split_ifs at hk with hin <;> simp_all) hk
  · apply h
    intro hmem
    apply hk
    split_ifs <;> simp [hmem]

theorem goodKeys_removeNeighbor {m : Adj} (h : goodKeys m) (a b : String) :
    goodKeys (removeNeighbor m a b) := by
  intro k hk
  rw [removeNeighbor_keys] at hk
  rw [removeNeighbor]
  split_ifs with hin
  · simp only []
    split_ifs with he
    · subst he
      exact absurd hin hk
    · exact h k hk
  · exact h k hk

theorem goodKeys_addPair {m : Adj} (h : goodKeys m) (a b : String) :
    goodKeys (addPair m a b) :=
  goodKeys_addNeighbor (goodKeys_addNeighbor h a b) b a

theorem goodKeys_removePair {m : Adj} (h : goodKeys m) (a b : String) :
    goodKeys (removePair m a b) :=
  goodKeys_removeNeighbor (goodKeys_removeNeighbor h a b) b a

theorem mem_removeNeighbor {m : Adj} (hk : goodKeys m) {a b k x : String} :
    x ∈ (removeNeighbor m a b).nbrs k ↔ x ∈ m.nbrs k ∧ ¬(k = a ∧ x = b) := by
  rw [removeNeighbor]
  split_ifs with h
  · by_cases hk2 : k = a
    · subst hk2
      simp [Finset.mem_erase]
      try tauto
    · simp [hk2]
      try tauto
  · by_cases hk2 : k = a
    · subst hk2
      rw [hk _ h]
      simp
    · simp [hk2]
      try tauto

theorem mem_removePair {m : Adj} (hk : goodKeys m) {a b k x : String} :
    x ∈ (removePair m a b).nbrs k ↔
      x ∈ m.nbrs k ∧ ¬(k = a ∧ x = b) ∧ ¬(k = b ∧ x = a) := by
  rw [removePair, mem_removeNeighbor (goodKeys_removeNeighbor hk a b),
    mem_removeNeighbor hk]
  tauto

/-- Generic preservation along a fold, with the step property restricted to the
elements of the folded list. -/
theorem foldl_preserve_mem {α : Type} {P : Adj → Prop} {f : Adj → α → Adj} :
    ∀ (l : List α) (m : Adj), (∀ m x, x ∈ l → P m → P (f m x)) → P m → P (l.foldl f m) := by
  intro l
  induction l with
  | nil => intro m _ h; exact h
  | cons x xs ih =>
    intro m hf h
    exact ih _ (fun m y hy => hf m y (List.mem_cons_of_mem x hy)) (hf m x (List.mem_cons_self x xs) h)

/-- The invariant of the shared adjacency structure: symmetric, irreflexive,
all keys and neighbors drawn from the scene ids, and no hidden entries. -/
def Inv (ids : List String) (m : Adj) : Prop :=
  (∀ a b, b ∈ m.nbrs a ↔ a ∈ m.nbrs b) ∧
  (∀ a, a ∉ m.nbrs a) ∧
  (∀ a, a ∈ m.keys → a ∈ ids) ∧
  (∀ a b, b ∈ m.nbrs a → a ∈ ids ∧ b ∈ ids) ∧
  goodKeys m

theorem Inv_empty (ids : List String) : Inv ids Adj.empty := by
  refine ⟨?_, ?_, ?_, ?_, ?_⟩ <;> intro a <;> simp [Adj.empty, goodKeys]

theorem addPair_inv {ids : List String} {m : Adj} {a b : String}
    (h : Inv ids m) (hne : a ≠ b) (ha : a ∈ ids) (hb : b ∈ ids) :
    Inv ids (addPair m a b) := by
  obtain ⟨hsym, hirr, hkeys, hval, hgood⟩ := h
  refine ⟨?_, ?_, ?_, ?_, goodKeys_addPair hgood a b⟩
  · intro u v
    rw [mem_addPair, mem_addPair, hsym]
    tauto
  · intro u
    rw [mem_addPair]
    rintro (⟨rfl, rfl⟩ | ⟨rfl, rfl⟩ | hu)
    · exact hne rfl
    · exact hne rfl
    · exact hirr u hu
  · intro u hu
    rcases mem_addPair_keys.mp hu with rfl | rfl | hu2
    · exact ha
    · exact hb
    · exact hkeys u hu2
  · intro u v hv
    rcases mem_addPair.mp hv with ⟨rfl, rfl⟩ | ⟨rfl, rfl⟩ | hv2
    · exact ⟨ha, hb⟩
    · exact ⟨hb, ha⟩
    · exact hval u v hv2

theorem removePair_inv {ids : List String} {m : Adj} {a b : String} (h : Inv ids m) :
    Inv ids (removePair m a b) := by
  obtain ⟨hsym, hirr, hkeys, hval, hgood⟩ := h
  refine ⟨?_, ?_, ?_, ?_, goodKeys_removePair hgood a b⟩
  · intro u v
    rw [mem_removePair hgood, mem_removePair hgood, hsym]
    tauto
  · intro u hu
    exact hirr u ((mem_removePair hgood).mp hu).1
  · intro u hu
    rw [removePair_keys] at hu
    exact hkeys u hu
  · intro u v hv
    exact hval u v ((mem_removePair hgood).mp hv).1

/-! ## Sorting lemmas -/

theorem insertByKey_perm {α : Type} (key : α → ℚ) (x : α) :
    ∀ l : List α, List.Perm (insertByKey key x l) (x :: l) := by
  intro l
  induction l with
  | nil => exact List.Perm.refl _
  | cons y ys ih =>
    rw [insertByKey]
    split_ifs
    · exact List.Perm.refl _
    · exact (ih.cons y).trans (List.Perm.swap x y ys)

theorem foldl_insertByKey_perm {α : Type} (key : α → ℚ) :
    ∀ (l acc : List α),
      List.Perm (l.foldl (fun acc x => insertByKey key x acc) acc) (l ++ acc) := by
  intro l
  induction l with
  | nil => intro acc; exact List.Perm.refl _
  | cons x xs ih =>
    intro acc
    have h1 : (x :: xs).foldl (fun acc x => insertByKey key x acc) acc
        = xs.foldl (fun acc x => insertByKey key x acc) (insertByKey key x acc) := rfl
    rw [h1]
    have h2 := ih (insertByKey key x acc)
    have h3 := (insertByKey_perm key x acc).append_left xs
    have h4 : List.Perm (xs ++ x :: acc) (x :: (xs ++ acc)) := List.perm_middle
    exact (h2.trans h3).trans h4

theorem sortByKey_perm {α : Type} (key : α → ℚ) (l : List α) :
    List.Perm (sortByKey key l) l := by
  have h := foldl_insertByKey_perm key l []
  rw [List.append_nil] at h
  exact h

theorem sortScenes_perm (l : List Scene) : List.Perm (sortScenes l) l := sortByKey_perm sceneIdNum l

theorem insertByKeyR_perm {α : Type} (key : α → ℝ) (x : α) :
    ∀ l : List α, List.Perm (insertByKeyR key x l) (x :: l) := by
  intro l
  induction l with
  | nil => exact List.Perm.refl _
  | cons y ys ih =>
    rw [insertByKeyR]
    split_ifs
    · exact List.Perm.refl _
    · exact (ih.cons y).trans (List.Perm.swap x y ys)

theorem foldl_insertByKeyR_perm {α : Type} (key : α → ℝ) :
    ∀ (l acc : List α),
      List.Perm (l.foldl (fun acc x => insertByKeyR key x acc) acc) (l ++ acc) := by
  intro l
  induction l with
  | nil => intro acc; exact List.Perm.refl _
  | cons x xs ih =>
    intro acc
    have h1 : (x :: xs).foldl (fun acc x => insertByKeyR key x acc) acc
        = xs.foldl (fun acc x => insertByKeyR key x acc) (insertByKeyR key x acc) := rfl
    rw [h1]
    have h2 := ih (insertByKeyR key x acc)
    have h3 := (insertByKeyR_perm key x acc).append_left xs
    have h4 : List.Perm (xs ++ x :: acc) (x :: (xs ++ acc)) := List.perm_middle
    exact (h2.trans h3).trans h4

theorem sortByKeyR_perm {α : Type} (key : α → ℝ) (l : List α) :
    List.Perm (sortByKeyR key l) l := by
  have h := foldl_insertByKeyR_perm key l []
  rw [List.append_nil] at h
  exact h

theorem insertByKeyR_pairwise {α : Type} (key : α → ℝ) (x : α) :
    ∀ l : List α, l.Pairwise (fun p q => key p ≤ key q) →
      (insertByKeyR key x l).Pairwise (fun p q => key p ≤ key q) := by
  intro l
  induction l with
  | nil => intro _; simp [insertByKeyR]
  | cons y ys ih =>
    intro h
    rw [insertByKeyR]
    rcases List.pairwise_cons.mp h with ⟨hy, hys⟩
    split_ifs with hlt
    · refine List.pairwise_cons.mpr ⟨?_, h⟩
      intro z hz
      rcases List.mem_cons.mp hz with rfl | hz2
      · exact le_of_lt hlt
      · exact le_trans (le_of_lt hlt) (hy z hz2)
    · refine List.pairwise_cons.mpr ⟨?_, ih hys⟩
      intro z hz
      rcases List.mem_cons.mp ((insertByKeyR_perm key x ys).mem_iff.mp hz) with rfl | h2
      · exact le_of_not_lt hlt
      · exact hy z h2

theorem sortByKeyR_pairwise {α : Type} (key : α → ℝ) (l : List α) :
    (sortByKeyR key l).Pairwise (fun p q => key p ≤ key q) := by
  rw [sortByKeyR]
  have hgen : ∀ (ts acc : List α), acc.Pairwise (fun p q => key p ≤ key q) →
      (ts.foldl (fun acc x => insertByKeyR key x acc) acc).Pairwise
        (fun p q => key p ≤ key q) := by
    intro ts
    induction ts with
    | nil => intro acc h; exact h
    | cons t ts2 ih => intro acc h; exact ih _ (insertByKeyR_pairwise key t acc h)
  exact hgen l [] (by simp)

/-! ## Candidate-scan lemmas -/

theorem lookupBucket_none {l : List (ℤ × Cand)} {b : ℤ} (h : lookupBucket l b = none) :
    b ∉ l.map Prod.fst := by
  intro hmem
  rcases List.mem_map.mp hmem with ⟨pr, hpr, hfst⟩
  rw [lookupBucket] at h
  have hfind := Option.map_eq_none'.mp h
  rw [List.find?_eq_none] at hfind
  exact hfind pr hpr (by simp [hfst])

theorem lookupBucket_mem : ∀ {l : List (ℤ × Cand)} {b : ℤ} {c : Cand},
    lookupBucket l b = some c → (b, c) ∈ l := by
  intro l
  induction l with
  | nil => intro b c h; simp [lookupBucket] at h
  | cons q qs ih =>
    intro b c h
    by_cases hq : q.1 = b
    · rw [lookupBucket, List.find?_cons_of_pos _ (by simp [hq])] at h
      simp only [Option.map_some'] at h
      have hqe : q = (b, c) := by
        rw [Prod.ext_iff]
        exact ⟨hq, by injection h⟩
      rw [← hqe]
      exact List.mem_cons_self q qs
    · rw [lookupBucket, List.find?_cons_of_neg _ (by simp [hq])] at h
      exact List.mem_cons_of_mem q (ih h)

theorem lookupBucket_unique {l : List (ℤ × Cand)} {b : ℤ} {pr : ℤ × Cand}
    (hN : (l.map Prod.fst).Nodup) (hpr : pr ∈ l) (hb : pr.1 = b) :
    lookupBucket l b = some pr.2 := by
  induction l with
  | nil => cases hpr
  | cons q qs ih =>
    rw [List.map_cons, List.nodup_cons] at hN
    by_cases hq : q.1 = b
    · have hqpr : pr = q := by
        rcases List.mem_cons.mp hpr with h | h
        · exact h
        · exfalso
          apply hN.1
          rw [hq, ← hb]
          exact List.mem_map.mpr ⟨pr, h, rfl⟩
      rw [lookupBucket, List.find?_cons_of_pos _ (by simp [hq]), hqpr]
      rfl
    · have hpr2 : pr ∈ qs := by
        rcases List.mem_cons.mp hpr with h | h
        · exact absurd (h ▸ hb) hq
        · exact h
      rw [lookupBucket, List.find?_cons_of_neg _ (by simp [hq])]
      rw [lookupBucket] at ih
      exact ih hN.2 hpr2

theorem replaceBucket_map_fst (l : List (ℤ × Cand)) (b : ℤ) (c : Cand) :
    (replaceBucket l b c).map Prod.fst = l.map Prod.fst := by
  induction l with
  | nil => rfl
  | cons q qs ih =>
    rw [replaceBucket, List.map_cons, List.map_cons, List.map_cons]
    by_cases hq : q.1 = b
    · rw [if_pos (by simp [hq])]
      rw [replaceBucket] at ih
      rw [ih]
      simp [hq]
    · rw [if_neg (by simp [hq])]
      rw [replaceBucket] at ih
      rw [ih]

theorem mem_replaceBucket {l : List (ℤ × Cand)} {b : ℤ} {c : Cand} {pr : ℤ × Cand}
    (h : pr ∈ replaceBucket l b c) : pr = (b, c) ∨ (pr ∈ l ∧ pr.1 ≠ b) := by
  rcases List.mem_map.mp h with ⟨q, hq, he⟩
  by_cases hqb : q.1 = b
  · left
    rw [← he, if_pos (by simp [hqb])]
  · right
    rw [← he, if_neg (by simp [hqb])]
    exact ⟨hq, hqb⟩

/-- Invariant of the `bestByBucket` accumulation: bucket keys are unique, every
already-seen in-range candidate's bucket is represented, and each stored entry
records its own bucket, comes from a seen candidate, and is nearest among the
seen candidates of its bucket. -/
def CandInv (a : Node) (seen : List Node) (best : List (ℤ × Cand)) : Prop :=
  (best.map Prod.fst).Nodup ∧
  (∀ t ∈ seen, t.id ≠ a.id → ¬(dist a t > LINK_RADIUS) →
    ∀ b, classifyOf a t = some b → b ∈ best.map Prod.fst) ∧
  (∀ pr ∈ best,
    pr.2.bucket = pr.1 ∧
    (∃ t ∈ seen, t.id = pr.2.bId ∧ t.id ≠ a.id ∧ ¬(dist a t > LINK_RADIUS) ∧
      pr.2.d = dist a t ∧ classifyOf a t = some pr.1) ∧
    (∀ t ∈ seen, t.id ≠ a.id → ¬(dist a t > LINK_RADIUS) → classifyOf a t = some pr.1 →
      pr.2.d ≤ dist a t))

theorem candInv_nil (a : Node) : CandInv a [] [] := by
  refine ⟨by simp, by simp, by simp⟩

/-- The unchanged-accumulator case of `candInv_step`: the invariant extends to
one more seen node provided its coverage and its minimality against the stored
entries are supplied separately. -/
theorem candInv_keep {a : Node} {seen : List Node} {best : List (ℤ × Cand)} {t : Node}
    (hN : (best.map Prod.fst).Nodup)
    (hcov : ∀ u ∈ seen, u.id ≠ a.id → ¬(dist a u > LINK_RADIUS) →
      ∀ b, classifyOf a u = some b → b ∈ best.map Prod.fst)
    (hspec : ∀ pr ∈ best,
      pr.2.bucket = pr.1 ∧
      (∃ u ∈ seen, u.id = pr.2.bId ∧ u.id ≠ a.id ∧ ¬(dist a u > LINK_RADIUS) ∧
        pr.2.d = dist a u ∧ classifyOf a u = some pr.1) ∧
      (∀ u ∈ seen, u.id ≠ a.id → ¬(dist a u > LINK_RADIUS) → classifyOf a u = some pr.1 →
        pr.2.d ≤ dist a u))
    (hcovT : t.id ≠ a.id → ¬(dist a t > LINK_RADIUS) →
      ∀ b, classifyOf a t = some b → b ∈ best.map Prod.fst)
    (hminT : ∀ pr ∈ best, t.id ≠ a.id → ¬(dist a t > LINK_RADIUS) →
      classifyOf a t = some pr.1 → pr.2.d ≤ dist a t) :
    CandInv a (seen ++ [t]) best := by
  refine ⟨hN, ?_, ?_⟩
  · intro u hu hne hrad b hb
    rcases List.mem_append.mp hu with hu | hu
    · exact hcov u hu hne hrad b hb
    · rw [List.mem_singleton] at hu
      subst hu
      exact hcovT hne hrad b hb
  · intro pr hpr
    obtain ⟨hb, ⟨u, hu, hrest⟩, hmin⟩ := hspec pr hpr
    refine ⟨hb, ⟨u, List.mem_append_left _ hu, hrest⟩, ?_⟩
    intro u hu hne hrad hcl
    rcases List.mem_append.mp hu with hu | hu
    · exact hmin u hu hne hrad hcl
    · rw [List.mem_singleton] at hu
      subst hu
      exact hminT pr hpr hne hrad hcl

theorem candInv_step {a : Node} {seen : List Node} {best : List (ℤ × Cand)}
    (h : CandInv a seen best) (t : Node) :
    CandInv a (seen ++ [t]) (candStep a best t) := by
  obtain ⟨hN, hcov, hspec⟩ := h
  rw [candStep]
  by_cases h1 : t.id = a.id
  · rw [if_pos h1]
    exact candInv_keep hN hcov hspec (fun hne _ _ _ => absurd h1 hne)
      (fun pr _ hne _ _ => absurd h1 hne)
  · rw [if_neg h1]
    by_cases h2 : dist a t > LINK_RADIUS
    · rw [if_pos h2]
      exact candInv_keep hN hcov hspec (fun _ hrad _ _ => absurd h2 hrad)
        (fun pr _ _ hrad _ => absurd h2 hrad)
    · rw [if_neg h2]
      split
      next hcl =>
        exact candInv_keep hN hcov hspec
          (fun _ _ b hb => absurd (hcl.symm.trans hb) (by simp))
          (fun pr _ _ _ hb => absurd (hcl.symm.trans hb) (by simp))
      next bucket hcl =>
        split
        next hlk =>
          have hnotmem : bucket ∉ best.map Prod.fst := lookupBucket_none hlk
          refine ⟨?_, ?_, ?_⟩
          · rw [List.map_append]
            refine List.Nodup.append hN (by simp) ?_
            intro x hx hx2
            simp only [List.map_cons, List.map_nil, List.mem_singleton] at hx2
            subst hx2
            exact hnotmem hx
          · intro u hu hne hrad b hb
            rw [List.map_append]
            rcases List.mem_append.mp hu with hu | hu
            · exact List.mem_append_left _ (hcov u hu hne hrad b hb)
            · rw [List.mem_singleton] at hu
              subst hu
              rw [hcl] at hb
              have hbb : b = bucket := by
                injection hb.symm
              subst hbb
              simp
          · intro pr hpr
            rcases List.mem_append.mp hpr with hpr1 | hpr1
            · obtain ⟨hb, ⟨u, hu, hrest⟩, hmin⟩ := hspec pr hpr1
              refine ⟨hb, ⟨u, List.mem_append_left _ hu, hrest⟩, ?_⟩
              intro u hu hne hrad hucl
              rcases List.mem_append.mp hu with hu | hu
              · exact hmin u hu hne hrad hucl
              · rw [List.mem_singleton] at hu
                subst hu
                rw [hcl] at hucl
                have hbp : bucket = pr.1 := by injection hucl
                exact absurd (hbp ▸ (List.mem_map.mpr ⟨pr, hpr1, rfl⟩)) hnotmem
            · rw [List.mem_singleton] at hpr1
              subst hpr1
              refine ⟨rfl, ⟨t, List.mem_append_right _ (by simp), rfl, h1, h2, rfl, hcl⟩, ?_⟩
              intro u hu hne hrad hucl
              rcases List.mem_append.mp hu with hu | hu
              · exact absurd (hcov u hu hne hrad bucket hucl) hnotmem
              · rw [List.mem_singleton] at hu
                subst hu
                exact le_rfl
        next prev hlk =>
          have hprevmem : (bucket, prev) ∈ best := lookupBucket_mem hlk
          by_cases h3 : dist a t < prev.d
          · rw [if_pos h3]
            refine ⟨?_, ?_, ?_⟩
            · rw [replaceBucket_map_fst]
              exact hN
            · intro u hu hne hrad b hb
              rw [replaceBucket_map_fst]
              rcases List.mem_append.mp hu with hu | hu
              · exact hcov u hu hne hrad b hb
              · rw [List.mem_singleton] at hu
                subst hu
                rw [hcl] at hb
                have hbb : b = bucket := by injection hb.symm
                subst hbb
                exact List.mem_map.mpr ⟨(b, prev), hprevmem, rfl⟩
            · intro pr hpr
              rcases mem_replaceBucket hpr with hpr2 | ⟨hpr2, hne2⟩
              · subst hpr2
                refine ⟨rfl, ⟨t, List.mem_append_right _ (by simp), rfl, h1, h2, rfl, hcl⟩, ?_⟩
                intro u hu hne hrad hucl
                rcases List.mem_append.mp hu with hu | hu
                · have hold := (hspec (bucket, prev) hprevmem).2.2 u hu hne hrad hucl
                  exact le_trans (le_of_lt h3) hold
                · rw [List.mem_singleton] at hu
                  subst hu
                  exact le_rfl
              · obtain ⟨hb, ⟨u, hu, hrest⟩, hmin⟩ := hspec pr hpr2
                refine ⟨hb, ⟨u, List.mem_append_left _ hu, hrest⟩, ?_⟩
                intro u hu hne hrad hucl
                rcases List.mem_append.mp hu with hu | hu
                · exact hmin u hu hne hrad hucl
                · rw [List.mem_singleton] at hu
                  subst hu
                  rw [hcl] at hucl
                  have hbp : bucket = pr.1 := by injection hucl
                  exact absurd hbp.symm hne2
          · rw [if_neg h3]
            refine candInv_keep hN hcov hspec ?_ ?_
            · intro hne hrad b hb
              rw [hcl] at hb
              have hbb : b = bucket := by injection hb.symm
              subst hbb
              exact List.mem_map.mpr ⟨(b, prev), hprevmem, rfl⟩
            · intro pr hpr hne hrad hucl
              rw [hcl] at hucl
              have hbe : bucket = pr.1 := by injection hucl
              have huniq := lookupBucket_unique hN hpr hbe.symm
              rw [hlk] at huniq
              have hpd : prev = pr.2 := by injection huniq
              rw [← hpd]
              exact le_of_not_lt h3

theorem candScan_inv (a : Node) (nodes : List Node) : CandInv a nodes (candScan a nodes) := by
  have hgen : ∀ (ts seen : List Node) (best : List (ℤ × Cand)),
      CandInv a seen best → CandInv a (seen ++ ts) (ts.foldl (candStep a) best) := by
    intro ts
    induction ts with
    | nil => intro seen best h; simpa using h
    | cons t ts2 ih =>
      intro seen best h
      have h2 := ih (seen ++ [t]) (candStep a best t) (candInv_step h t)
      simpa using h2
  have h := hgen nodes [] [] (candInv_nil a)
  simpa [candScan] using h

/-! ## Winners and lookup lemmas -/

/-- Everything the downstream phases need about `winners`: unique buckets,
at most the configured count, sorted by distance, and provenance plus
per-bucket minimality of every winner. -/
theorem winnersOf_spec (a : Node) (nodes : List Node) :
    ((winnersOf a nodes).map (fun c => c.bucket)).Nodup ∧
    (winnersOf a nodes).length ≤ MAX_PROX_LINKS_PER_NODE ∧
    (winnersOf a nodes).Pairwise (fun p q => p.d ≤ q.d) ∧
    ∀ c ∈ winnersOf a nodes,
      (∃ t ∈ nodes, t.id = c.bId ∧ t.id ≠ a.id ∧ ¬(dist a t > LINK_RADIUS) ∧
        c.d = dist a t ∧ classifyOf a t = some c.bucket) ∧
      (∀ t ∈ nodes, t.id ≠ a.id → ¬(dist a t > LINK_RADIUS) →
        classifyOf a t = some c.bucket → c.d ≤ dist a t) := by
  obtain ⟨hN, hcov, hspec⟩ := candScan_inv a nodes
  have hvals : ((candScan a nodes).map (fun p => p.2)).map (fun c => c.bucket) =
      (candScan a nodes).map Prod.fst := by
    rw [List.map_map]
    apply List.map_congr_left
    intro pr hpr
    exact (hspec pr hpr).1
  have hsorted := sortByKeyR_perm (fun c : Cand => c.d) ((candScan a nodes).map (fun p => p.2))
  have htake : List.Sublist (winnersOf a nodes)
      (sortByKeyR (fun c : Cand => c.d) ((candScan a nodes).map (fun p => p.2))) := by
    rw [winnersOf]
    exact List.take_sublist _ _
  refine ⟨?_, ?_, ?_, ?_⟩
  · have h1 : (((candScan a nodes).map (fun p => p.2)).map (fun c => c.bucket)).Nodup := by
      rw [hvals]
      exact hN
    have h2 := (hsorted.map (fun c : Cand => c.bucket)).nodup_iff.mpr h1
    exact (htake.map (fun c : Cand => c.bucket)).nodup h2
  · rw [winnersOf]
    exact List.length_take_le _ _
  · exact (sortByKeyR_pairwise (fun c : Cand => c.d) _).sublist htake
  · intro c hc
    have hc2 : c ∈ (candScan a nodes).map (fun p => p.2) :=
      hsorted.mem_iff.mp (htake.subset hc)
    rcases List.mem_map.mp hc2 with ⟨pr, hpr, hprc⟩
    obtain ⟨hb, ⟨t, ht, hrest⟩, hmin⟩ := hspec pr hpr
    subst hprc
    rw [hb]
    exact ⟨⟨t, ht, hrest⟩, hmin⟩

theorem acceptedWinners_sublist (req : Bool) (nodes : List Node) (a : Node) :
    List.Sublist (acceptedWinners req nodes a) (winnersOf a nodes) := by
  rw [acceptedWinners]
  split_ifs
  · exact List.filter_sublist _
  · exact List.Sublist.refl _

theorem nodeOf_go : ∀ (nodes : List Node) (acc : String → Option Node) (i : String) (n : Node),
    (nodes.foldl (fun acc n => fun k => if k = n.id then some n else acc k) acc) i = some n →
    (n ∈ nodes ∧ n.id = i) ∨ acc i = some n := by
  intro nodes
  induction nodes with
  | nil => intro acc i n h; exact Or.inr h
  | cons m rest ih =>
    intro acc i n h
    rcases ih _ i n h with ⟨hm, hid⟩ | hacc
    · exact Or.inl ⟨List.mem_cons_of_mem _ hm, hid⟩
    · have hacc2 : (if i = m.id then some m else acc i) = some n := hacc
      by_cases hi : i = m.id
      · rw [if_pos hi] at hacc2
        have hmn : m = n := by injection hacc2
        subst hmn
        exact Or.inl ⟨List.mem_cons_self m rest, hi.symm⟩
      · rw [if_neg hi] at hacc2
        exact Or.inr hacc2

theorem nodeOf_mem {nodes : List Node} {i : String} {n : Node} (h : nodeOf nodes i = some n) :
    n ∈ nodes ∧ n.id = i := by
  rcases nodeOf_go nodes (fun _ => none) i n h with hres | hres
  · exact hres
  · cases hres

theorem nodesFrom_ids : ∀ (l : List Scene) (p : ℝ × ℝ),
    (nodesFrom p l).map Node.id = l.map Scene.id := by
  intro l
  induction l with
  | nil => intro p; rfl
  | cons s rest ih => intro p; simp [nodesFrom, ih]

theorem nodesSnapped_ids (l : List Scene) :
    (nodesSnapped l).map Node.id = l.map Scene.id := by
  rw [nodesSnapped, List.map_map]
  exact nodesFrom_ids l (0, 0)

/-! ## Claims C5 and C6 -/

/-- C5: each node keeps at most one proximity winner per directional bucket and
at most `MAX_PROX_LINKS_PER_NODE` in total, sorted by (and per bucket minimal
in) distance. -/
theorem c5_bucket_exclusivity :
    ∀ (scenes : List Scene) (a : Node),
      a ∈ nodesSnapped (sortScenes scenes) →
      ((acceptedWinners REQUIRE_RECIPROCAL (nodesSnapped (sortScenes scenes)) a).map
          (fun c => c.bucket)).Nodup ∧
      (acceptedWinners REQUIRE_RECIPROCAL (nodesSnapped (sortScenes scenes)) a).length ≤
        MAX_PROX_LINKS_PER_NODE ∧
      (acceptedWinners REQUIRE_RECIPROCAL (nodesSnapped (sortScenes scenes)) a).Pairwise
        (fun p q => p.d ≤ q.d) ∧
      ∀ c ∈ acceptedWinners REQUIRE_RECIPROCAL (nodesSnapped (sortScenes scenes)) a,
        ∀ t ∈ nodesSnapped (sortScenes scenes), t.id ≠ a.id →
          ¬(dist a t > LINK_RADIUS) → classifyOf a t = some c.bucket → c.d ≤ dist a t := by
  intro scenes a _
  have hsub := acceptedWinners_sublist REQUIRE_RECIPROCAL (nodesSnapped (sortScenes scenes)) a
  obtain ⟨hN, hlen, hpair, hmem⟩ := winnersOf_spec a (nodesSnapped (sortScenes scenes))
  refine ⟨?_, ?_, ?_, ?_⟩
  · exact (hsub.map (fun c : Cand => c.bucket)).nodup hN
  · exact le_trans hsub.length_le hlen
  · exact hpair.sublist hsub
  · intro c hc t ht hne hrad hcl
    exact (hmem c (hsub.subset hc)).2 t ht hne hrad hcl

/-- Witness for C5 on a one-scene table. -/
theorem c5_witness :
    ({ id := "1", x := 0, y := 0, headingDeg := 0 } : Node) ∈
      nodesSnapped (sortScenes [sceneA]) ∧
    (acceptedWinners REQUIRE_RECIPROCAL (nodesSnapped (sortScenes [sceneA]))
        { id := "1", x := 0, y := 0, headingDeg := 0 }).length ≤ MAX_PROX_LINKS_PER_NODE := by
  have heval : nodesSnapped (sortScenes [sceneA]) =
      [{ id := "1", x := 0, y := 0, headingDeg := 0 }] := by
    simp [nodesSnapped, nodesRaw, nodesFrom, sortScenes, sortByKey, insertByKey, sceneA,
      snapToGrid_zero]
  have hmem : ({ id := "1", x := 0, y := 0, headingDeg := 0 } : Node) ∈
      nodesSnapped (sortScenes [sceneA]) := by
    rw [heval]
    exact List.mem_singleton.mpr rfl
  exact ⟨hmem, (c5_bucket_exclusivity [sceneA] _ hmem).2.1⟩

/-- C6: with reciprocity validation enabled, every accepted proximity winner of
a node is classified, from the winner's side, into the exact geometric opposite
bucket. -/
theorem c6_reciprocity :
    ∀ (scenes : List Scene),
      (scenes.map Scene.id).Nodup →
      REQUIRE_RECIPROCAL = true →
      ∀ a ∈ nodesSnapped (sortScenes scenes),
        ∀ w ∈ acceptedWinners REQUIRE_RECIPROCAL (nodesSnapped (sortScenes scenes)) a,
          ∃ b ∈ nodesSnapped (sortScenes scenes),
            b.id = w.bId ∧
            classifyOf a b = some w.bucket ∧
            ∃ v, reciprocalBucket w.bucket = some v ∧ classifyOf b a = some v := by
  intro scenes hNodup _ a _ w hw
  have hNids : ((nodesSnapped (sortScenes scenes)).map Node.id).Nodup := by
    rw [nodesSnapped_ids]
    exact ((sortScenes_perm scenes).map Scene.id).nodup_iff.mpr hNodup
  rw [acceptedWinners, if_pos (show REQUIRE_RECIPROCAL = true from rfl)] at hw
  rcases List.mem_filter.mp hw with ⟨hwin, hok⟩
  rw [reciprocalOk] at hok
  cases hb : nodeOf (nodesSnapped (sortScenes scenes)) w.bId with
  | none => rw [hb] at hok; cases hok
  | some bNode =>
    rw [hb] at hok
    obtain ⟨hbmem, hbid⟩ := nodeOf_mem hb
    have hok2 : (match classifyOf bNode a, reciprocalBucket w.bucket with
        | some bucketBA, some expected => bucketBA == expected
        | _, _ => false) = true := hok
    cases hcb : classifyOf bNode a with
    | none => rw [hcb] at hok2; simp at hok2
    | some bucketBA =>
      rw [hcb] at hok2
      cases hrb : reciprocalBucket w.bucket with
      | none => rw [hrb] at hok2; simp at hok2
      | some expected =>
        rw [hrb] at hok2
        have heq : bucketBA = expected := by simpa using hok2
        obtain ⟨⟨t, ht, htid, htne, htrad, htd, htcl⟩, _⟩ :=
          (winnersOf_spec a (nodesSnapped (sortScenes scenes))).2.2.2 w hwin
        have htb : t = bNode :=
          List.inj_on_of_nodup_map hNids ht hbmem (by rw [htid, hbid])
        refine ⟨bNode, hbmem, hbid, ?_, expected, rfl, ?_⟩
        · rw [← htb]
          exact htcl
        · rw [hcb, heq]

/-! ## Phase invariants and claims C4, C7 -/

theorem zip_tail_spec : ∀ {l : List Scene}, (l.map Scene.id).Nodup →
    ∀ p ∈ l.zip l.tail, p.1.id ≠ p.2.id ∧ p.1 ∈ l ∧ p.2 ∈ l := by
  intro l
  induction l with
  | nil => intro _ p hp; simp at hp
  | cons s rest ih =>
    intro hN p hp
    cases rest with
    | nil => simp at hp
    | cons t rest2 =>
      rw [List.map_cons, List.nodup_cons] at hN
      simp only [List.tail_cons, List.zip_cons_cons, List.mem_cons] at hp
      rcases hp with rfl | hp2
      · refine ⟨?_, List.mem_cons_self _ _, List.mem_cons_of_mem _ (List.mem_cons_self _ _)⟩
        intro he
        apply hN.1
        rw [he]
        exact List.mem_map.mpr ⟨t, List.mem_cons_self _ _, rfl⟩
      · have hr := ih hN.2 p hp2
        exact ⟨hr.1, List.mem_cons_of_mem _ hr.2.1, List.mem_cons_of_mem _ hr.2.2⟩

theorem seqPhase_inv {ids : List String} {scenes : List Scene} {m : Adj}
    (hm : Inv ids m) (hN : (scenes.map Scene.id).Nodup)
    (hsub : ∀ s ∈ scenes, s.id ∈ ids) : Inv ids (seqPhase scenes m) := by
  rw [seqPhase]
  refine foldl_preserve_mem _ _ ?_ hm
  intro m p hp hInv
  rw [consecutivePairs] at hp
  rcases List.mem_map.mp hp with ⟨q, hq, rfl⟩
  obtain ⟨hne, h1, h2⟩ := zip_tail_spec hN q hq
  exact addPair_inv hInv hne (hsub _ h1) (hsub _ h2)

theorem manualPhase_inv {ids : List String} {manual : List EdgeRow} {m : Adj}
    (hm : Inv ids m) (hman : ∀ e ∈ manual, e.fromId ≠ e.toId) :
    Inv ids (manualPhase ids manual m) := by
  rw [manualPhase]
  refine foldl_preserve_mem _ _ ?_ hm
  intro m e he hInv
  split_ifs with hc
  · exact addPair_inv hInv (hman e he) hc.1 hc.2
  · exact hInv

theorem proxPhase_inv {ids : List String} {req : Bool} {nodes : List Node} {m : Adj}
    (hm : Inv ids m) (hids : ∀ n ∈ nodes, n.id ∈ ids) : Inv ids (proxPhase req nodes m) := by
  rw [proxPhase]
  refine foldl_preserve_mem _ _ ?_ hm
  intro m a ha hInv
  refine foldl_preserve_mem _ _ ?_ hInv
  intro m w hw hInv2
  have hw2 : w ∈ winnersOf a nodes := (acceptedWinners_sublist req nodes a).subset hw
  obtain ⟨⟨t, ht, htid, htne, _⟩, _⟩ := (winnersOf_spec a nodes).2.2.2 w hw2
  refine addPair_inv hInv2 ?_ (hids a ha) ?_
  · intro he
    exact htne (by rw [htid, ← he])
  · rw [← htid]
    exact hids t ht

theorem blockedPhase_inv {ids : List String} {blocked : List EdgeRow} {m : Adj}
    (hm : Inv ids m) : Inv ids (blockedPhase blocked m) := by
  rw [blockedPhase]
  refine foldl_preserve_mem _ _ ?_ hm
  intro m e _ hInv
  exact removePair_inv hInv

theorem pipelineAdj_inv (scenes : List Scene) (manual blocked : List EdgeRow)
    (hN : (scenes.map Scene.id).Nodup) (hman : ∀ e ∈ manual, e.fromId ≠ e.toId) :
    Inv (sceneIds (sortScenes scenes)) (pipelineAdj scenes manual blocked) := by
  rw [pipelineAdj]
  have hN2 : ((sortScenes scenes).map Scene.id).Nodup :=
    ((sortScenes_perm scenes).map Scene.id).nodup_iff.mpr hN
  refine blockedPhase_inv (proxPhase_inv (manualPhase_inv ?_ hman) ?_)
  · exact seqPhase_inv (Inv_empty _) hN2 (fun s hs => List.mem_map.mpr ⟨s, hs, rfl⟩)
  · intro n hn
    have hids := nodesSnapped_ids (sortScenes scenes)
    rw [sceneIds, ← hids]
    exact List.mem_map.mpr ⟨n, hn, rfl⟩

/-- C4 as amended: for a scene table with unique ids and a manual edge list
declaring no self-pair, the final adjacency is symmetric, self-loop free, and
mentions only scene-table ids (neighbor sets are sets, hence duplicate-free, by
construction). A manual edge whose two endpoints are the same existing id does
create a self-loop, which is what the amendment excludes. -/
theorem c4_amended (scenes : List Scene) (manual blocked : List EdgeRow)
    (hN : (scenes.map Scene.id).Nodup) (hman : ∀ e ∈ manual, e.fromId ≠ e.toId) :
    (∀ a b, b ∈ (pipelineAdj scenes manual blocked).nbrs a ↔
        a ∈ (pipelineAdj scenes manual blocked).nbrs b) ∧
    (∀ a, a ∉ (pipelineAdj scenes manual blocked).nbrs a) ∧
    (∀ a, a ∈ (pipelineAdj scenes manual blocked).keys → a ∈ sceneIds scenes) ∧
    (∀ a b, b ∈ (pipelineAdj scenes manual blocked).nbrs a →
        a ∈ sceneIds scenes ∧ b ∈ sceneIds scenes) := by
  obtain ⟨hsym, hirr, hkeys, hval, _⟩ := pipelineAdj_inv scenes manual blocked hN hman
  have htrans : ∀ x : String, x ∈ sceneIds (sortScenes scenes) → x ∈ sceneIds scenes := by
    intro x hx
    exact ((sortScenes_perm scenes).map Scene.id).mem_iff.mp hx
  refine ⟨hsym, hirr, ?_, ?_⟩
  · intro a ha
    exact htrans a (hkeys a ha)
  · intro a b hb
    obtain ⟨h1, h2⟩ := hval a b hb
    exact ⟨htrans a h1, htrans b h2⟩

/-- Scene record with id 5, used by the C4 concrete run. -/
def sceneC5 : Scene :=
  { id := "5", type := "gen", floor := "", sectionName := "", notes := "c", filename := "c.jpg",
    sceneKey := "c", headingDeg := 0, moveHeadingDeg := none, stepMeters := 5 }

/-- Counterexample to C4 as stated: a manual edge joining the existing id 5 to
itself passes the existence check and leaves a self-loop in the final
adjacency. -/
theorem c4_counterexample :
    ("5" : String) ∈ (pipelineAdj [sceneC5] [{ fromId := "5", toId := "5" }] []).nbrs "5" := by
  decide

/-- Witness for C4 on a one-scene table with no manual or blocked edges. -/
theorem c4_witness :
    (([sceneA] : List Scene).map Scene.id).Nodup ∧
    (∀ a, a ∉ (pipelineAdj [sceneA] [] []).nbrs a) :=
  ⟨by simp, (c4_amended [sceneA] [] [] (by simp) (by simp)).2.1⟩

theorem mem_blockedPhase_mono :
    ∀ (blocked : List EdgeRow) (m : Adj), goodKeys m →
      ∀ (k x : String), x ∈ (blockedPhase blocked m).nbrs k → x ∈ m.nbrs k := by
  intro blocked
  induction blocked with
  | nil => intro m _ k x h; exact h
  | cons e rest ih =>
    intro m hg k x h
    have h2 := ih (removePair m e.fromId e.toId) (goodKeys_removePair hg _ _) k x h
    exact ((mem_removePair hg).mp h2).1

theorem blockedPhase_kills :
    ∀ (blocked : List EdgeRow) (m : Adj), goodKeys m →
      ∀ e ∈ blocked,
        e.toId ∉ (blockedPhase blocked m).nbrs e.fromId ∧
        e.fromId ∉ (blockedPhase blocked m).nbrs e.toId := by
  intro blocked
  induction blocked with
  | nil => intro m _ e he; cases he
  | cons e0 rest ih =>
    intro m hg e he
    have hg2 : goodKeys (removePair m e0.fromId e0.toId) := goodKeys_removePair hg _ _
    rcases List.mem_cons.mp he with rfl | he2
    · constructor
      · intro hmem
        have h2 := mem_blockedPhase_mono rest _ hg2 _ _ hmem
        rw [mem_removePair hg] at h2
        exact h2.2.1 ⟨rfl, rfl⟩
      · intro hmem
        have h2 := mem_blockedPhase_mono rest _ hg2 _ _ hmem
        rw [mem_removePair hg] at h2
        exact h2.2.2 ⟨rfl, rfl⟩
    · exact ih _ hg2 e he2

/-- C7: every blocked pair is absent from the final adjacency in both
directions, no matter which edge source introduced it. -/
theorem c7_blocked_absolute :
    ∀ (scenes : List Scene) (manual blocked : List EdgeRow) (e : EdgeRow), e ∈ blocked →
      e.toId ∉ (pipelineAdj scenes manual blocked).nbrs e.fromId ∧
      e.fromId ∉ (pipelineAdj scenes manual blocked).nbrs e.toId := by
  intro scenes manual blocked e he
  rw [pipelineAdj]
  refine blockedPhase_kills blocked _ ?_ e he
  rw [proxPhase]
  refine foldl_preserve_mem _ _ ?_ ?_
  · intro m a _ hg
    refine foldl_preserve_mem _ _ ?_ hg
    intro m w _ hg2
    exact goodKeys_addPair hg2 _ _
  · rw [manualPhase]
    refine foldl_preserve_mem _ _ ?_ ?_
    · intro m e2 _ hg
      split_ifs
      · exact goodKeys_addPair hg _ _
      · exact hg
    · rw [seqPhase]
      refine foldl_preserve_mem _ _ ?_ ?_
      · intro m p _ hg
        exact goodKeys_addPair hg _ _
      · intro k _
        rfl

/-- Witness for C7 on a one-scene table with a single blocked pair. -/
theorem c7_witness :
    ({ fromId := "1", toId := "2" } : EdgeRow) ∈ [({ fromId := "1", toId := "2" } : EdgeRow)] ∧
    ("2" : String) ∉ (pipelineAdj [sceneA] [] [{ fromId := "1", toId := "2" }]).nbrs "1" :=
  ⟨List.mem_singleton.mpr rfl,
    (c7_blocked_absolute [sceneA] [] [{ fromId := "1", toId := "2" }] _
      (List.mem_singleton.mpr rfl)).1⟩

/-! ## The three-scene end-to-end example (claims C2 and C6) -/

/-- Example scene 1: heading north, step 5. -/
def cs1 : Scene :=
  { id := "1", type := "gen", floor := "", sectionName := "", notes := "s1", filename := "s1.jpg",
    sceneKey := "s1", headingDeg := 0, moveHeadingDeg := none, stepMeters := 5 }

/-- Example scene 2: heading north, step 5. -/
def cs2 : Scene :=
  { id := "2", type := "gen", floor := "", sectionName := "", notes := "s2", filename := "s2.jpg",
    sceneKey := "s2", headingDeg := 0, moveHeadingDeg := none, stepMeters := 5 }

/-- Example scene 3: heading east, step 5. -/
def cs3 : Scene :=
  { id := "3", type := "gen", floor := "", sectionName := "", notes := "s3", filename := "s3.jpg",
    sceneKey := "s3", headingDeg := 90, moveHeadingDeg := none, stepMeters := 5 }

/-- Node of scene 1 in the example: the origin. -/
noncomputable def c2n1 : Node := { id := "1", x := 0, y := 0, headingDeg := 0 }

/-- Node of scene 2 in the example: five meters north. -/
noncomputable def c2n2 : Node := { id := "2", x := 0, y := -5, headingDeg := 0 }

/-- Node of scene 3 in the example: ten meters north. -/
noncomputable def c2n3 : Node := { id := "3", x := 0, y := -10, headingDeg := 90 }

theorem dist_12 : dist c2n1 c2n2 = 5 := by
  have h : dist c2n1 c2n2 = |(0:ℝ) - (-5)| := dist_vertical
  rw [h]
  norm_num

theorem dist_21 : dist c2n2 c2n1 = 5 := by
  have h : dist c2n2 c2n1 = |(-5:ℝ) - 0| := dist_vertical
  rw [h]
  norm_num

theorem dist_23 : dist c2n2 c2n3 = 5 := by
  have h : dist c2n2 c2n3 = |(-5:ℝ) - (-10)| := dist_vertical
  rw [h]
  norm_num

theorem dist_32 : dist c2n3 c2n2 = 5 := by
  have h : dist c2n3 c2n2 = |(-10:ℝ) - (-5)| := dist_vertical
  rw [h]
  norm_num

theorem dist_13 : dist c2n1 c2n3 = 10 := by
  have h : dist c2n1 c2n3 = |(0:ℝ) - (-10)| := dist_vertical
  rw [h]
  norm_num

theorem dist_31 : dist c2n3 c2n1 = 10 := by
  have h : dist c2n3 c2n1 = |(-10:ℝ) - 0| := dist_vertical
  rw [h]
  norm_num

theorem classify_12 : classifyOf c2n1 c2n2 = some 0 := by
  show nearestCardinalBucket (normalize180 (bearingDeg 0 0 0 (-5) - ((0:ℚ) : ℝ))) = some 0
  rw [bearingDeg_north (by norm_num : (-5:ℝ) < 0)]
  rw [show (0:ℝ) - ((0:ℚ) : ℝ) = 0 by norm_num]
  rw [normalize180_of_mem (by norm_num) (by norm_num)]
  exact ncb_zero

theorem classify_21 : classifyOf c2n2 c2n1 = some 180 := by
  show nearestCardinalBucket (normalize180 (bearingDeg 0 (-5) 0 0 - ((0:ℚ) : ℝ))) = some 180
  rw [bearingDeg_south (by norm_num : (-5:ℝ) < 0)]
  rw [show (180:ℝ) - ((0:ℚ) : ℝ) = 180 by norm_num]
  rw [normalize180_180]
  exact ncb_oneeighty

theorem classify_23 : classifyOf c2n2 c2n3 = some 0 := by
  show nearestCardinalBucket (normalize180 (bearingDeg 0 (-5) 0 (-10) - ((0:ℚ) : ℝ))) = some 0
  rw [bearingDeg_north (by norm_num : (-10:ℝ) < -5)]
  rw [show (0:ℝ) - ((0:ℚ) : ℝ) = 0 by norm_num]
  rw [normalize180_of_mem (by norm_num) (by norm_num)]
  exact ncb_zero

theorem classify_32 : classifyOf c2n3 c2n2 = some 90 := by
  show nearestCardinalBucket (normalize180 (bearingDeg 0 (-10) 0 (-5) - ((90:ℚ) : ℝ))) = some 90
  rw [bearingDeg_south (by norm_num : (-10:ℝ) < -5)]
  rw [show (180:ℝ) - ((90:ℚ) : ℝ) = 90 by norm_num]
  rw [normalize180_of_mem (by norm_num) (by norm_num)]
  exact ncb_ninety

theorem c2_nodesRaw : nodesRaw [cs1, cs2, cs3] = [c2n1, c2n2, c2n3] := by
  show nodesFrom (0, 0) [cs1, cs2, cs3] = [c2n1, c2n2, c2n3]
  rw [nodesFrom, nodesFrom, nodesFrom, nodesFrom]
  have hstep1 : drStep (0, 0) cs1 = ((0 : ℝ), (-5 : ℝ)) := by
    show ((0:ℝ) + ((5:ℚ) : ℝ) * Real.sin (((0:ℚ) : ℝ) * Real.pi / 180),
      (0:ℝ) - ((5:ℚ) : ℝ) * Real.cos (((0:ℚ) : ℝ) * Real.pi / 180)) = ((0 : ℝ), (-5 : ℝ))
    rw [theta_zero, Real.sin_zero, Real.cos_zero]
    norm_num
  have hstep2 : drStep ((0 : ℝ), (-5 : ℝ)) cs2 = ((0 : ℝ), (-10 : ℝ)) := by
    show ((0:ℝ) + ((5:ℚ) : ℝ) * Real.sin (((0:ℚ) : ℝ) * Real.pi / 180),
      (-5:ℝ) - ((5:ℚ) : ℝ) * Real.cos (((0:ℚ) : ℝ) * Real.pi / 180)) = ((0 : ℝ), (-10 : ℝ))
    rw [theta_zero, Real.sin_zero, Real.cos_zero]
    norm_num
  rw [hstep1, hstep2]
  rfl

theorem c2_sort : sortScenes [cs1, cs2, cs3] = [cs1, cs2, cs3] := by
  have k1 : sceneIdNum cs1 = ((1:ℕ) : ℚ) := rfl
  have k2 : sceneIdNum cs2 = ((2:ℕ) : ℚ) := rfl
  have k3 : sceneIdNum cs3 = ((3:ℕ) : ℚ) := rfl
  show sortByKey sceneIdNum [cs1, cs2, cs3] = [cs1, cs2, cs3]
  rw [sortByKey]
  show insertByKey sceneIdNum cs3 (insertByKey sceneIdNum cs2 (insertByKey sceneIdNum cs1 []))
    = [cs1, cs2, cs3]
  rw [show insertByKey sceneIdNum cs1 [] = [cs1] from rfl]
  rw [show insertByKey sceneIdNum cs2 [cs1] = [cs1, cs2] by
    rw [insertByKey, if_neg (by rw [k2, k1]; norm_num)]
    rfl]
  rw [insertByKey, if_neg (by rw [k3, k1]; norm_num)]
  rw [insertByKey, if_neg (by rw [k3, k2]; norm_num)]
  rfl

theorem c2_nodes : nodesSnapped (sortScenes [cs1, cs2, cs3]) = [c2n1, c2n2, c2n3] := by
  rw [c2_sort, nodesSnapped, c2_nodesRaw]
  rw [List.map_cons, List.map_cons, List.map_cons, List.map_nil]
  show [{ c2n1 with x := snapToGrid 0 GRID_STEP, y := snapToGrid 0 GRID_STEP },
    { c2n2 with x := snapToGrid 0 GRID_STEP, y := snapToGrid (-5) GRID_STEP },
    { c2n3 with x := snapToGrid 0 GRID_STEP, y := snapToGrid (-10) GRID_STEP }] = [c2n1, c2n2, c2n3]
  rw [snapToGrid_zero, snapToGrid_neg_five, snapToGrid_neg_ten]
  rfl

theorem candScan_1 :
    candScan c2n1 [c2n1, c2n2, c2n3] = [(0, { bId := "2", d := 5, bucket := 0 })] := by
  rw [candScan, List.foldl_cons, List.foldl_cons, List.foldl_cons, List.foldl_nil]
  rw [show candStep c2n1 [] c2n1 = [] by rw [candStep, if_pos rfl]]
  rw [show candStep c2n1 [] c2n2 = [(0, { bId := "2", d := 5, bucket := 0 })] by
    rw [candStep, if_neg (by decide), dist_12, if_neg (by norm_num [LINK_RADIUS]), classify_12]
    rfl]
  rw [candStep, if_neg (by decide), dist_13, if_pos (by norm_num [LINK_RADIUS])]

theorem candScan_2 :
    candScan c2n2 [c2n1, c2n2, c2n3] =
      [(180, { bId := "1", d := 5, bucket := 180 }), (0, { bId := "3", d := 5, bucket := 0 })] := by
  rw [candScan, List.foldl_cons, List.foldl_cons, List.foldl_cons, List.foldl_nil]
  rw [show candStep c2n2 [] c2n1 = [(180, { bId := "1", d := 5, bucket := 180 })] by
    rw [candStep, if_neg (by decide), dist_21, if_neg (by norm_num [LINK_RADIUS]), classify_21]
    rfl]
  rw [show candStep c2n2 [(180, { bId := "1", d := 5, bucket := 180 })] c2n2
      = [(180, { bId := "1", d := 5, bucket := 180 })] by
    rw [candStep, if_pos rfl]]
  rw [candStep, if_neg (by decide), dist_23, if_neg (by norm_num [LINK_RADIUS]), classify_23]
  rfl

theorem candScan_3 :
    candScan c2n3 [c2n1, c2n2, c2n3] = [(90, { bId := "2", d := 5, bucket := 90 })] := by
  rw [candScan, List.foldl_cons, List.foldl_cons, List.foldl_cons, List.foldl_nil]
  rw [show candStep c2n3 [] c2n1 = [] by
    rw [candStep, if_neg (by decide), dist_31, if_pos (by norm_num [LINK_RADIUS])]]
  rw [show candStep c2n3 [] c2n2 = [(90, { bId := "2", d := 5, bucket := 90 })] by
    rw [candStep, if_neg (by decide), dist_32, if_neg (by norm_num [LINK_RADIUS]), classify_32]
    rfl]
  rw [candStep, if_pos rfl]

theorem winners_1 : winnersOf c2n1 [c2n1, c2n2, c2n3] = [{ bId := "2", d := 5, bucket := 0 }] := by
  rw [winnersOf, candScan_1]
  rfl

theorem winners_2 : winnersOf c2n2 [c2n1, c2n2, c2n3] =
    [{ bId := "1", d := 5, bucket := 180 }, { bId := "3", d := 5, bucket := 0 }] := by
  rw [winnersOf, candScan_2]
  show (sortByKeyR (fun c => c.d)
      [({ bId := "1", d := 5, bucket := 180 } : Cand), { bId := "3", d := 5, bucket := 0 }]).take
    MAX_PROX_LINKS_PER_NODE = _
  rw [sortByKeyR, List.foldl_cons, List.foldl_cons, List.foldl_nil]
  rw [show insertByKeyR (fun c : Cand => c.d) { bId := "1", d := 5, bucket := 180 } [] =
    [{ bId := "1", d := 5, bucket := 180 }] from rfl]
  rw [insertByKeyR, if_neg (by show ¬((5:ℝ) < 5); norm_num)]
  rfl

theorem winners_3 : winnersOf c2n3 [c2n1, c2n2, c2n3] = [{ bId := "2", d := 5, bucket := 90 }] := by
  rw [winnersOf, candScan_3]
  rfl

theorem nodeOf3_1 : nodeOf [c2n1, c2n2, c2n3] "1" = some c2n1 := rfl

theorem nodeOf3_2 : nodeOf [c2n1, c2n2, c2n3] "2" = some c2n2 := rfl

theorem nodeOf3_3 : nodeOf [c2n1, c2n2, c2n3] "3" = some c2n3 := rfl

theorem recip_1_2 : reciprocalOk [c2n1, c2n2, c2n3] c2n1 { bId := "2", d := 5, bucket := 0 }
    = true := by
  simp only [reciprocalOk, nodeOf3_2, classify_21, reciprocalBucket]
  decide

theorem recip_2_1 : reciprocalOk [c2n1, c2n2, c2n3] c2n2 { bId := "1", d := 5, bucket := 180 }
    = true := by
  simp only [reciprocalOk, nodeOf3_1, classify_12, reciprocalBucket]
  decide

theorem recip_2_3 : reciprocalOk [c2n1, c2n2, c2n3] c2n2 { bId := "3", d := 5, bucket := 0 }
    = false := by
  simp only [reciprocalOk, nodeOf3_3, classify_32, reciprocalBucket]
  decide

theorem recip_3_2 : reciprocalOk [c2n1, c2n2, c2n3] c2n3 { bId := "2", d := 5, bucket := 90 }
    = false := by
  simp only [reciprocalOk, nodeOf3_2, classify_23, reciprocalBucket]
  decide

theorem acc_1 : acceptedWinners REQUIRE_RECIPROCAL [c2n1, c2n2, c2n3] c2n1 =
    [{ bId := "2", d := 5, bucket := 0 }] := by
  rw [acceptedWinners, if_pos (show REQUIRE_RECIPROCAL = true from rfl), winners_1]
  simp [List.filter_cons, recip_1_2]

theorem acc_2 : acceptedWinners REQUIRE_RECIPROCAL [c2n1, c2n2, c2n3] c2n2 =
    [{ bId := "1", d := 5, bucket := 180 }] := by
  rw [acceptedWinners, if_pos (show REQUIRE_RECIPROCAL = true from rfl), winners_2]
  simp [List.filter_cons, recip_2_1, recip_2_3]

theorem acc_3 : acceptedWinners REQUIRE_RECIPROCAL [c2n1, c2n2, c2n3] c2n3 = [] := by
  rw [acceptedWinners, if_pos (show REQUIRE_RECIPROCAL = true from rfl), winners_3]
  simp [List.filter_cons, recip_3_2]

theorem c2_pipeline : pipelineAdj [cs1, cs2, cs3] [] [] =
    addPair (addPair (addPair (addPair Adj.empty "1" "2") "2" "3") "1" "2") "2" "1" := by
  rw [pipelineAdj]
  simp only [c2_nodes]
  rw [c2_sort]
  have hb : ∀ m : Adj, blockedPhase [] m = m := fun m => rfl
  have hm : ∀ (ids : List String) (m : Adj), manualPhase ids [] m = m := fun _ m => rfl
  have hs : seqPhase [cs1, cs2, cs3] Adj.empty = addPair (addPair Adj.empty "1" "2") "2" "3" := rfl
  rw [hb, hm, hs, proxPhase]
  simp only [List.foldl_cons, List.foldl_nil, acc_1, acc_2, acc_3]
  rfl

theorem hotspot_23 : hotspotYaw c2n2 c2n3 = 0 := by
  have h : hotspotYaw c2n2 c2n3 =
      (match classifyOf c2n2 c2n3 with
       | some b => ((b : ℤ) : ℝ)
       | none =>
         normalize180 (bearingDeg c2n2.x c2n2.y c2n3.x c2n3.y - ((c2n2.headingDeg : ℚ) : ℝ))) :=
    rfl
  rw [h, classify_23]
  norm_num

/-! ## Claim C2 -/

/-- C2 as amended: for the three-scene example (ids 1,2,3, headings N,N,E, no
movement headings, step 5 each) the pipeline produces positions (0,0), (0,-5),
(0,-10), sequential edges 1-2 and 2-3, final adjacency exactly those edges, and
scene 2's hotspot toward scene 3 has yaw normalize(bearing(2,3) - heading(2)) =
normalize(0 - 0) = 0, because scene 3 lies due north of scene 2. -/
theorem c2_amended :
    nodesSnapped (sortScenes [cs1, cs2, cs3]) = [c2n1, c2n2, c2n3] ∧
    consecutivePairs (sortScenes [cs1, cs2, cs3]) = [("1", "2"), ("2", "3")] ∧
    (pipelineAdj [cs1, cs2, cs3] [] []).nbrs "1" = {"2"} ∧
    (pipelineAdj [cs1, cs2, cs3] [] []).nbrs "2" = {"1", "3"} ∧
    (pipelineAdj [cs1, cs2, cs3] [] []).nbrs "3" = {"2"} ∧
    hotspotYaw c2n2 c2n3 = 0 := by
  refine ⟨c2_nodes, by rw [c2_sort]; rfl, ?_, ?_, ?_, hotspot_23⟩
  · rw [c2_pipeline]
    decide
  · rw [c2_pipeline]
    decide
  · rw [c2_pipeline]
    decide

/-- Counterexample to C2 as stated: in the three-scene example, scene 2's
hotspot toward scene 3 has yaw 0, not 90. -/
theorem c2_counterexample :
    hotspotYaw ((nodesSnapped (sortScenes [cs1, cs2, cs3])).getD 1 dfltNode)
      ((nodesSnapped (sortScenes [cs1, cs2, cs3])).getD 2 dfltNode) ≠ 90 := by
  rw [c2_nodes]
  show hotspotYaw c2n2 c2n3 ≠ 90
  rw [hotspot_23]
  norm_num

/-! ## Witness for C6 on the two-scene prefix of the example -/

theorem c6_sort : sortScenes [cs1, cs2] = [cs1, cs2] := by
  have k1 : sceneIdNum cs1 = ((1:ℕ) : ℚ) := rfl
  have k2 : sceneIdNum cs2 = ((2:ℕ) : ℚ) := rfl
  show sortByKey sceneIdNum [cs1, cs2] = [cs1, cs2]
  rw [sortByKey]
  show insertByKey sceneIdNum cs2 (insertByKey sceneIdNum cs1 []) = [cs1, cs2]
  rw [show insertByKey sceneIdNum cs1 [] = [cs1] from rfl]
  rw [insertByKey, if_neg (by rw [k2, k1]; norm_num)]
  rfl

theorem c6_nodes : nodesSnapped (sortScenes [cs1, cs2]) = [c2n1, c2n2] := by
  rw [c6_sort, nodesSnapped]
  have hraw : nodesRaw [cs1, cs2] = [c2n1, c2n2] := by
    show nodesFrom (0, 0) [cs1, cs2] = [c2n1, c2n2]
    rw [nodesFrom, nodesFrom, nodesFrom]
    have hstep1 : drStep (0, 0) cs1 = ((0 : ℝ), (-5 : ℝ)) := by
      show ((0:ℝ) + ((5:ℚ) : ℝ) * Real.sin (((0:ℚ) : ℝ) * Real.pi / 180),
        (0:ℝ) - ((5:ℚ) : ℝ) * Real.cos (((0:ℚ) : ℝ) * Real.pi / 180)) = ((0 : ℝ), (-5 : ℝ))
      rw [theta_zero, Real.sin_zero, Real.cos_zero]
      norm_num
    rw [hstep1]
    rfl
  rw [hraw]
  rw [List.map_cons, List.map_cons, List.map_nil]
  show [{ c2n1 with x := snapToGrid 0 GRID_STEP, y := snapToGrid 0 GRID_STEP },
    { c2n2 with x := snapToGrid 0 GRID_STEP, y := snapToGrid (-5) GRID_STEP }] = [c2n1, c2n2]
  rw [snapToGrid_zero, snapToGrid_neg_five]
  rfl

theorem candScan_1w : candScan c2n1 [c2n1, c2n2] = [(0, { bId := "2", d := 5, bucket := 0 })] := by
  rw [candScan, List.foldl_cons, List.foldl_cons, List.foldl_nil]
  rw [show candStep c2n1 [] c2n1 = [] by rw [candStep, if_pos rfl]]
  rw [candStep, if_neg (by decide), dist_12, if_neg (by norm_num [LINK_RADIUS]), classify_12]
  rfl

theorem winners_1w : winnersOf c2n1 [c2n1, c2n2] = [{ bId := "2", d := 5, bucket := 0 }] := by
  rw [winnersOf, candScan_1w]
  rfl

theorem nodeOf2_2 : nodeOf [c2n1, c2n2] "2" = some c2n2 := rfl

theorem recip_1_2w : reciprocalOk [c2n1, c2n2] c2n1 { bId := "2", d := 5, bucket := 0 }
    = true := by
  simp only [reciprocalOk, nodeOf2_2, classify_21, reciprocalBucket]
  decide

theorem acc_1w : acceptedWinners REQUIRE_RECIPROCAL [c2n1, c2n2] c2n1 =
    [{ bId := "2", d := 5, bucket := 0 }] := by
  rw [acceptedWinners, if_pos (show REQUIRE_RECIPROCAL = true from rfl), winners_1w]
  simp [List.filter_cons, recip_1_2w]

/-- Witness for C6 on the two-scene table: node 1 accepts node 2 as its front
winner, and the classification looking back is the opposite bucket. -/
theorem c6_witness :
    (([cs1, cs2] : List Scene).map Scene.id).Nodup ∧
    c2n1 ∈ nodesSnapped (sortScenes [cs1, cs2]) ∧
    ({ bId := "2", d := 5, bucket := 0 } : Cand) ∈
      acceptedWinners REQUIRE_RECIPROCAL (nodesSnapped (sortScenes [cs1, cs2])) c2n1 ∧
    ∃ b ∈ nodesSnapped (sortScenes [cs1, cs2]),
      b.id = ({ bId := "2", d := 5, bucket := 0 } : Cand).bId ∧
      classifyOf c2n1 b = some ({ bId := "2", d := 5, bucket := 0 } : Cand).bucket ∧
      ∃ v, reciprocalBucket ({ bId := "2", d := 5, bucket := 0 } : Cand).bucket = some v ∧
        classifyOf b c2n1 = some v := by
  have hN : (([cs1, cs2] : List Scene).map Scene.id).Nodup := by decide
  have hmem : c2n1 ∈ nodesSnapped (sortScenes [cs1, cs2]) := by
    rw [c6_nodes]
    exact List.mem_cons_self _ _
  have hw : ({ bId := "2", d := 5, bucket := 0 } : Cand) ∈
      acceptedWinners REQUIRE_RECIPROCAL (nodesSnapped (sortScenes [cs1, cs2])) c2n1 := by
    rw [c6_nodes, acc_1w]
    exact List.mem_singleton.mpr rfl
  exact ⟨hN, hmem, hw, c6_reciprocity [cs1, cs2] hN rfl c2n1 hmem _ hw⟩

end TourBuild
